import Mathlib

/-!
Shallow embedding of the transaction pipeline of the `OOP_base` repository
(queue `src/day4/model/queue.py`, transactions `src/day4/model/transaction.py`,
processor `src/day4/model/processor.py`, risk analyzer `src/day5/model/audit.py`,
accounts `src/day1/model/abstract_account.py`, `src/model/bank_account.py`,
`src/day2/model/premium_account.py`).

Modelling conventions:
- Python floats are modelled as `ℚ` (all arithmetic in the pipeline is exact
  at the inputs the claims use).
- `datetime` values are modelled as `ℤ` seconds; `timedelta(seconds = d)` is
  `(d : ℤ)`; a call to `datetime.now(timezone.utc)` during an operation is
  modelled by the operation's `now` argument (the source's `now = None`
  default sets `now` to the wall clock, so the two coincide in the intended
  single-threaded use).
- Python dicts keyed by strings become association lists with
  `lookupA` / `updateA` (update-in-place, append new keys at the tail,
  matching dict insertion-order semantics).
- `heapq` (a binary min-heap over `_QueueItem`, whose derived dataclass order
  is lexicographic on `(scheduled_at, neg_priority, order)` with `tx_id`
  excluded) is modelled by a list kept sorted by that key: `heappush` is
  sorted insertion, `heappop` takes the head.  Since every pushed item gets a
  fresh `order` from `_order_seq`, keys are totally ordered and this model
  has exactly the observable pop behaviour of the source heap.
- Python exceptions raised by account operations and `_process_transaction`
  become an explicit error type `PErr`; the catch-all `except Exception`
  branch of `process_next` corresponds to the `transient` constructor, which
  in the embedding arises when an account reference does not resolve to an
  account object (the source raises `AttributeError` when `tx.sender` /
  `tx.recipient` is not an account).
- In-place mutation of account objects is modelled by threading the account
  map; `_process_transaction` returns the map as mutated so far together
  with an optional error, so mutations made before a failure persist,
  exactly as in the source.
- The analyzer's `extra` dict and the transaction's informational timestamps
  (`created_at`, `updated_at`, `processed_at`) are derived/diagnostic output
  that no claim touches and are omitted.
-/

namespace OOPBase

/-- `Currency` enum from `src/day1/model/abstract_account.py`. -/
inductive Currency where
  | RUB | USD | EUR | KZT | CNY
deriving DecidableEq, Repr

/-- `AccountStatus` enum from `src/day1/model/abstract_account.py`. -/
inductive AccountStatus where
  | ACTIVE | FROZEN | CLOSED
deriving DecidableEq, Repr

/-- `TransactionType` enum from `src/day4/model/transaction.py`. -/
inductive TransactionType where
  | TRANSFER
deriving DecidableEq, Repr

/-- `TransactionStatus` enum from `src/day4/model/transaction.py`. -/
inductive TransactionStatus where
  | PENDING | CANCELLED | PROCESSED | FAILED
deriving DecidableEq, Repr

/-- Account behaviour variant: the base `BankAccount`
(`src/model/bank_account.py`) or `PremiumAccount`
(`src/day2/model/premium_account.py`, overdraft limit and fixed
per-withdrawal fee).  These are the two classes the processor
distinguishes (`isinstance(sender, PremiumAccount)`). -/
inductive AccountKind where
  | base
  | premium (overdraft_limit : ℚ) (withdraw_fee_fixed : ℚ)
deriving DecidableEq, Repr

/-- A bank account: id, protected balance, status, currency, behaviour kind
(`AbstractAccount.__init__` plus the subclass data). -/
structure Account where
  id : String
  balance : ℚ
  status : AccountStatus
  currency : Currency
  kind : AccountKind
deriving DecidableEq, Repr

/-- `Transaction` dataclass from `src/day4/model/transaction.py`.
`sender` / `recipient` hold the referenced account id (`none` models
Python `None`); a reference not present in the account map models a
non-account object. -/
structure Transaction where
  tx_id : String
  tx_type : TransactionType
  amount : ℚ
  currency : Currency
  sender : Option String
  recipient : Option String
  fee_fixed : ℚ := 0
  scheduled_at : ℤ
  priority : ℤ := 0
  is_external : Bool := false
  status : TransactionStatus := .PENDING
  failure_reason : Option String := none
  attempts : ℕ := 0
deriving DecidableEq, Repr

/-- `Transaction.mark_failed`. -/
def Transaction.mark_failed (tx : Transaction) (reason : String) : Transaction :=
  { tx with status := .FAILED, failure_reason := some reason }

/-- `Transaction.mark_processed`. -/
def Transaction.mark_processed (tx : Transaction) : Transaction :=
  { tx with status := .PROCESSED, failure_reason := none }

/-- `Transaction.cancel`. -/
def Transaction.cancelTx (tx : Transaction) (reason : String) : Transaction :=
  { tx with status := .CANCELLED, failure_reason := some reason }

/-! ### Association lists (Python `dict` keyed by strings) -/

/-- Dict lookup `d.get(k)`. -/
def lookupA {α : Type} (k : String) : List (String × α) → Option α
  | [] => none
  | (k2, v) :: rest => if k2 = k then some v else lookupA k rest

/-- Dict assignment `d[k] = v` (overwrites in place, appends new keys). -/
def updateA {α : Type} (k : String) (v : α) : List (String × α) → List (String × α)
  | [] => [(k, v)]
  | (k2, v2) :: rest => if k2 = k then (k, v) :: rest else (k2, v2) :: updateA k v rest

/-! ### Transaction queue (`src/day4/model/queue.py`) -/

/-- `_QueueItem` dataclass: heap entries compare lexicographically on
`(scheduled_at, neg_priority, order)`; `tx_id` is `compare=False`. -/
structure QueueItem where
  scheduled_at : ℤ
  neg_priority : ℤ
  order : ℕ
  tx_id : String
deriving DecidableEq, Repr

/-- The comparison key of a heap entry. -/
def QueueItem.key (i : QueueItem) : ℤ × ℤ × ℕ :=
  (i.scheduled_at, i.neg_priority, i.order)

/-- Strict lexicographic dataclass order on `_QueueItem`. -/
def keyLt (a b : QueueItem) : Prop :=
  a.scheduled_at < b.scheduled_at ∨
    (a.scheduled_at = b.scheduled_at ∧
      (a.neg_priority < b.neg_priority ∨
        (a.neg_priority = b.neg_priority ∧ a.order < b.order)))

instance (a b : QueueItem) : Decidable (keyLt a b) := by
  unfold keyLt; infer_instance

/-- Reflexive closure of `keyLt`. -/
def keyLe (a b : QueueItem) : Prop := keyLt a b ∨ a.key = b.key

instance (a b : QueueItem) : Decidable (keyLe a b) := by
  unfold keyLe; infer_instance

/-- `heapq.heappush` on the sorted-list heap model: insert before the first
entry that is not strictly smaller. -/
def heapPush (i : QueueItem) : List QueueItem → List QueueItem
  | [] => [i]
  | j :: rest => if keyLt j i then j :: heapPush i rest else i :: j :: rest

/-- `TransactionQueue` state: the heap (sorted list), the id map
`_items`, and `_order_seq`. -/
structure TransactionQueue where
  heap : List QueueItem
  items : List (String × Transaction)
  order_seq : ℕ
deriving Repr

/-- The empty queue (`TransactionQueue.__init__`). -/
def TransactionQueue.empty : TransactionQueue := ⟨[], [], 0⟩

/-- `TransactionQueue.add`: fail on duplicate id, else register the
transaction and push a heap entry keyed by
`(tx.scheduled_at, -tx.priority, next order)`. -/
def TransactionQueue.add (q : TransactionQueue) (tx : Transaction) :
    Except String TransactionQueue :=
  match lookupA tx.tx_id q.items with
  | some _ => .error "Транзакция с таким id уже есть в очереди."
  | none =>
    .ok { heap := heapPush ⟨tx.scheduled_at, -tx.priority, q.order_seq + 1, tx.tx_id⟩ q.heap
          items := updateA tx.tx_id tx q.items
          order_seq := q.order_seq + 1 }

/-- `TransactionQueue.cancel`: no-op returning `false` for unknown ids and
for transactions already `PROCESSED` or `CANCELLED`; otherwise run
`tx.cancel(reason)`. -/
def TransactionQueue.cancel (q : TransactionQueue) (tx_id : String)
    (reason : String := "cancelled_by_user") : Bool × TransactionQueue :=
  match lookupA tx_id q.items with
  | none => (false, q)
  | some tx =>
    if tx.status = .PROCESSED ∨ tx.status = .CANCELLED then (false, q)
    else (true, { q with items := updateA tx_id (tx.cancelTx reason) q.items })

/-- The pop loop of `TransactionQueue.pop_ready`, recursing on the heap:
return `none` (heap untouched from here) when the root is scheduled in the
future, otherwise pop it, skip ids that do not resolve to a `PENDING`
transaction, and return the first `PENDING` one. -/
def popReadyAux (items : List (String × Transaction)) (now : ℤ) :
    List QueueItem → Option Transaction × List QueueItem
  | [] => (none, [])
  | top :: rest =>
    if now < top.scheduled_at then (none, top :: rest)
    else
      match lookupA top.tx_id items with
      | none => popReadyAux items now rest
      | some tx =>
        if tx.status = .PENDING then (some tx, rest)
        else popReadyAux items now rest

/-- `TransactionQueue.pop_ready`. -/
def TransactionQueue.pop_ready (q : TransactionQueue) (now : ℤ) :
    Option Transaction × TransactionQueue :=
  let r := popReadyAux q.items now q.heap
  (r.1, { q with heap := r.2 })

/-- `TransactionQueue.requeue`: no-op unless the transaction is `PENDING`;
with a positive delay set `scheduled_at := now + delay` (the source reads
the wall clock here, modelled by `now`); push a fresh heap entry; the id
map keeps the same (mutated-in-place) transaction. -/
def TransactionQueue.requeue (q : TransactionQueue) (tx_id : String) (now : ℤ)
    (delay_seconds : ℤ) : TransactionQueue :=
  match lookupA tx_id q.items with
  | none => q
  | some tx =>
    if tx.status ≠ .PENDING then q
    else
      let sched : ℤ := if delay_seconds > 0 then now + delay_seconds else tx.scheduled_at
      let tx2 := { tx with scheduled_at := sched }
      { heap := heapPush ⟨sched, -tx.priority, q.order_seq + 1, tx_id⟩ q.heap
        items := updateA tx_id tx2 q.items
        order_seq := q.order_seq + 1 }

/-- `TransactionQueue.__len__`: count of `PENDING` transactions in the map. -/
def TransactionQueue.lenQ (q : TransactionQueue) : ℕ :=
  (q.items.filter (fun p => p.2.status = .PENDING)).length

/-- `TransactionQueue.list_pending`. -/
def TransactionQueue.list_pending (q : TransactionQueue) : List String :=
  (q.items.filter (fun p => p.2.status = .PENDING)).map (·.1)

/-! ### Errors and account operations -/

/-- The exception taxonomy seen by `process_next`
(`src/day1/exeptions/exceptions.py`): the four terminal error classes, plus
`transient` for the catch-all `except Exception` branch (in this embedding
raised when an account reference does not resolve, the analogue of an
`AttributeError` on a non-account object). -/
inductive PErr where
  | AccountFrozen (msg : String)
  | AccountClosed (msg : String)
  | InvalidOperation (msg : String)
  | InsufficientFunds (msg : String)
  | transient (msg : String)
deriving DecidableEq, Repr

/-- Terminal errors: the four caught by the first `except` clause of
`process_next`. -/
def PErr.isTerminal : PErr → Bool
  | .transient _ => false
  | _ => true

/-- `str(e)` — the message carried by the exception. -/
def PErr.msg : PErr → String
  | .AccountFrozen m => m
  | .AccountClosed m => m
  | .InvalidOperation m => m
  | .InsufficientFunds m => m
  | .transient m => m

/-- `type(e).__name__` for the terminal error classes. -/
def PErr.typeName : PErr → String
  | .AccountFrozen _ => "AccountFrozenError"
  | .AccountClosed _ => "AccountClosedError"
  | .InvalidOperation _ => "InvalidOperationError"
  | .InsufficientFunds _ => "InsufficientFundsError"
  | .transient _ => "Exception"

/-- Account map: the live account objects, keyed by the reference strings
transactions hold. -/
def AccountMap : Type := List (String × Account)

/-- `BankAccount._ensure_active`. -/
def Account.ensure_active (acc : Account) : Except PErr Unit :=
  if acc.status = .FROZEN then .error (.AccountFrozen "Счёт заморожен. Операция запрещена.")
  else if acc.status = .CLOSED then .error (.AccountClosed "Счёт закрыт. Операция запрещена.")
  else .ok ()

/-- `BankAccount._validate_amount` (amounts are `ℚ`, hence always numeric). -/
def validate_amount (amount : ℚ) : Except PErr ℚ :=
  if amount ≤ 0 then .error (.InvalidOperation "Сумма должна быть положительной и больше нуля.")
  else .ok amount

/-- `deposit` (shared by both account variants). -/
def Account.deposit (acc : Account) (amount : ℚ) : Except PErr Account :=
  match acc.ensure_active with
  | .error e => .error e
  | .ok _ =>
    match validate_amount amount with
    | .error e => .error e
    | .ok value => .ok { acc with balance := acc.balance + value }

/-- `withdraw`: the base `BankAccount` rule (no negative balance) or the
`PremiumAccount` override (overdraft down to `-overdraft_limit`, plus the
fixed per-withdrawal fee debited on every call). -/
def Account.withdraw (acc : Account) (amount : ℚ) : Except PErr Account :=
  match acc.ensure_active with
  | .error e => .error e
  | .ok _ =>
    match validate_amount amount with
    | .error e => .error e
    | .ok value =>
      match acc.kind with
      | .base =>
        if value > acc.balance then .error (.InsufficientFunds "Недостаточно средств.")
        else .ok { acc with balance := acc.balance - value }
      | .premium overdraft_limit withdraw_fee_fixed =>
        let total_debit := value + withdraw_fee_fixed
        if acc.balance - total_debit < -overdraft_limit then
          .error (.InsufficientFunds "Превышен лимит овердрафта.")
        else .ok { acc with balance := acc.balance - total_debit }

/-! ### Risk analyzer (`src/day5/model/audit.py`) -/

/-- `RiskLevel` enum. -/
inductive RiskLevel where
  | LOW | MEDIUM | HIGH
deriving DecidableEq, Repr

/-- `AuditLevel` enum. -/
inductive AuditLevel where
  | INFO | WARNING | ERROR
deriving DecidableEq, Repr

/-- An audit record (level, message, transaction id); the free-form `extra`
dict and timestamp are diagnostic output omitted from the embedding. -/
structure AuditRecord where
  level : AuditLevel
  message : String
  tx_id : String
deriving DecidableEq, Repr

/-- `RiskConfig`: per-currency large-amount thresholds (`dict.get` with an
infinite default is modelled by `Option`), frequency window and limit, and
the night window given as seconds of the day. -/
structure RiskConfig where
  large_amount_threshold : Currency → Option ℚ
  frequency_window_seconds : ℤ
  frequency_limit : ℕ
  night_from : ℤ
  night_to : ℤ

/-- The default `RiskConfig` values. -/
def RiskConfig.default : RiskConfig where
  large_amount_threshold c :=
    some (match c with
      | .RUB => 100000
      | .USD => 2000
      | .EUR => 2000
      | .KZT => 2000000
      | .CNY => 15000)
  frequency_window_seconds := 60
  frequency_limit := 3
  night_from := 0
  night_to := 5 * 3600

/-- `RiskAnalyzer` state: configuration, per-sender timestamp history and
per-sender set of already-seen recipient ids. -/
structure RiskAnalyzer where
  config : RiskConfig
  history : List (String × List ℤ)
  known_recipients : List (String × List String)

/-- A fresh analyzer. -/
def RiskAnalyzer.init (cfg : RiskConfig := RiskConfig.default) : RiskAnalyzer :=
  ⟨cfg, [], []⟩

/-- `RiskAnalyzer._account_id` applied to an optional account reference:
the account object's `id`, or `""` for `None` / a non-account object
(where `getattr` raises). -/
def accountIdOf (accs : AccountMap) : Option String → String
  | none => ""
  | some ref =>
    match lookupA ref accs with
    | some acc => acc.id
    | none => ""

/-- `RiskAnalyzer._is_night`: the time of day (seconds) falls in
`[night_from, night_to)`. -/
def RiskAnalyzer.is_night (cfg : RiskConfig) (now : ℤ) : Prop :=
  cfg.night_from ≤ now % 86400 ∧ now % 86400 < cfg.night_to

instance (cfg : RiskConfig) (now : ℤ) : Decidable (RiskAnalyzer.is_night cfg now) := by
  unfold RiskAnalyzer.is_night; infer_instance

/-- The result of one `assess` call: final level, triggered reasons in rule
order, and the mutated analyzer (the `extra` dict is derived output the
embedding omits). -/
structure AssessResult where
  level : RiskLevel
  reasons : List String
  analyzer : RiskAnalyzer

/-- Rule 1 «Крупная сумма»: `amt >= threshold` escalates to `HIGH` (the
`dict.get` default of `inf` never fires). -/
def ruleLargeAmount (cfg : RiskConfig) (amount : ℚ) (currency : Currency) :
    RiskLevel × List String :=
  match cfg.large_amount_threshold currency with
  | some threshold =>
    if threshold ≤ amount then (.HIGH, ["крупная сумма"]) else (.LOW, [])
  | none => (.LOW, [])

/-- The sender's frequency history after one `assess` call: prune entries
with `ts < now − window`, then append `now`. -/
def freqHistAfter (cfg : RiskConfig) (history : List (String × List ℤ))
    (senderId : String) (now : ℤ) : List ℤ :=
  ((lookupA senderId history).getD []).filter
    (fun ts => now - cfg.frequency_window_seconds ≤ ts) ++ [now]

/-- Rule 2 «Частые операции»: mutate the per-sender history and escalate to
`HIGH` when the pruned-plus-current count reaches the limit. -/
def ruleFrequency (cfg : RiskConfig) (history : List (String × List ℤ))
    (senderId : String) (now : ℤ) (lr : RiskLevel × List String) :
    (RiskLevel × List String) × List (String × List ℤ) :=
  if senderId = "" then (lr, history)
  else
    let hist2 := freqHistAfter cfg history senderId now
    let history2 := updateA senderId hist2 history
    if cfg.frequency_limit ≤ hist2.length then
      ((.HIGH, lr.2 ++ ["частые операции"]), history2)
    else (lr, history2)

/-- Rule 3 «Новый получатель»: an unseen recipient id adds a reason,
escalates `LOW` to `MEDIUM` only, and is recorded as seen (the
`setdefault` registers the sender either way). -/
def ruleNewRecipient (known_recipients : List (String × List String))
    (senderId recipientId : String) (lr : RiskLevel × List String) :
    (RiskLevel × List String) × List (String × List String) :=
  if senderId = "" then (lr, known_recipients)
  else
    let known := (lookupA senderId known_recipients).getD []
    if recipientId ≠ "" ∧ recipientId ∉ known then
      ((if lr.1 = .LOW then .MEDIUM else lr.1, lr.2 ++ ["перевод на новый счёт"]),
       updateA senderId (known ++ [recipientId]) known_recipients)
    else (lr, updateA senderId known known_recipients)

/-- Rule 4 «Операция ночью»: a night-window timestamp adds a reason and
escalates `LOW` to `MEDIUM` only. -/
def ruleNight (cfg : RiskConfig) (now : ℤ) (lr : RiskLevel × List String) :
    RiskLevel × List String :=
  if RiskAnalyzer.is_night cfg now then
    (if lr.1 = .LOW then .MEDIUM else lr.1, lr.2 ++ ["операция ночью"])
  else lr

/-- `RiskAnalyzer.assess`: rules 1–4 in source order.  The caller extracts
`sender_id` / `recipient_id` via `accountIdOf` (the source computes them
inside `assess` with `_account_id`). -/
def RiskAnalyzer.assess (ra : RiskAnalyzer) (amount : ℚ) (currency : Currency)
    (senderId recipientId : String) (now : ℤ) : AssessResult :=
  let lr1 := ruleLargeAmount ra.config amount currency
  let p2 := ruleFrequency ra.config ra.history senderId now lr1
  let p3 := ruleNewRecipient ra.known_recipients senderId recipientId p2.1
  let lr4 := ruleNight ra.config now p3.1
  ⟨lr4.1, lr4.2, { ra with history := p2.2, known_recipients := p3.2 }⟩

/-! ### Transaction processor (`src/day4/model/processor.py`) -/

/-- `ProcessorConfig`: external surcharge, retry budget, conversion rates
(dict keyed by ordered currency pairs). -/
structure ProcessorConfig where
  external_fee_fixed : ℚ := 1
  max_retries : ℕ := 2
  rates : List ((Currency × Currency) × ℚ)

/-- `self.config.rates.get((cur_from, cur_to))`. -/
def lookupRate (rates : List ((Currency × Currency) × ℚ)) (a b : Currency) : Option ℚ :=
  match rates with
  | [] => none
  | (p, r) :: rest => if p = (a, b) then some r else lookupRate rest a b

/-- `TransactionProcessor.convert`: identity on the same currency, direct
rate lookup otherwise, `InvalidOperationError` when no rate is registered. -/
def ProcessorConfig.convert (cfg : ProcessorConfig) (amount : ℚ)
    (cur_from cur_to : Currency) : Except PErr ℚ :=
  if cur_from = cur_to then .ok amount
  else
    match lookupRate cfg.rates cur_from cur_to with
    | none => .error (.InvalidOperation "Нет курса для конвертации валют.")
    | some rate => .ok (amount * rate)

/-- `TransactionProcessor._ensure_account_active` applied to an optional
account reference: `None` passes; a reference that resolves is checked for
frozen/closed; a dangling reference models a non-account object, on which
the attribute access raises (transient). -/
def ensureAccountActive (accs : AccountMap) : Option String → Except PErr Unit
  | none => .ok ()
  | some ref =>
    match lookupA ref accs with
    | none => .error (.transient "AttributeError")
    | some acc =>
      if acc.status = .FROZEN then .error (.AccountFrozen "Счёт заморожен.")
      else if acc.status = .CLOSED then .error (.AccountClosed "Счёт закрыт.")
      else .ok ()

/-- The total fee of a transaction: fixed fee plus the external surcharge
when the externality flag is set. -/
def feeTotal (cfg : ProcessorConfig) (tx : Transaction) : ℚ :=
  tx.fee_fixed + (if tx.is_external then cfg.external_fee_fixed else 0)

/-- The debit amounts of an internal transfer: amount and fee converted to
the sender's currency when it differs from the transaction currency (the
fee only when positive). -/
def debitAmounts (cfg : ProcessorConfig) (tx : Transaction) (sender : Account) :
    Except PErr (ℚ × ℚ) :=
  if tx.currency ≠ sender.currency then do
    let da ← cfg.convert tx.amount tx.currency sender.currency
    let df ← if feeTotal cfg tx > 0 then cfg.convert (feeTotal cfg tx) tx.currency sender.currency
             else pure 0
    return (da, df)
  else pure (tx.amount, feeTotal cfg tx)

/-- The credit leg of an internal transfer: convert the principal to the
recipient's currency when it differs and deposit it; the sender's
withdrawals recorded in `accs2` persist even when this leg fails. -/
def creditPhase (cfg : ProcessorConfig) (accs2 : AccountMap) (tx : Transaction)
    (r_ref : String) (recipient : Account) : AccountMap × Option PErr :=
  match (if tx.currency ≠ recipient.currency then
           cfg.convert tx.amount tx.currency recipient.currency
         else .ok tx.amount) with
  | .error e => (accs2, some e)
  | .ok credit_amount =>
    match recipient.deposit credit_amount with
    | .error e => (accs2, some e)
    | .ok recipient1 => (updateA r_ref recipient1 accs2, none)

/-- `TransactionProcessor._process_transaction`.  Returns the account map as
mutated so far together with `none` on success or `some e` for the raised
exception — mutations made before a failure persist, as the source mutates
the account objects in place. -/
def processTransaction (cfg : ProcessorConfig) (accs : AccountMap) (tx : Transaction) :
    AccountMap × Option PErr :=
  if tx.tx_type ≠ .TRANSFER then
    (accs, some (.InvalidOperation "Неподдерживаемый тип транзакции."))
  else
    let amount := tx.amount
    if amount ≤ 0 then (accs, some (.InvalidOperation "Сумма должна быть положительной."))
    else
      let fee_total := feeTotal cfg tx
      match ensureAccountActive accs tx.sender with
      | .error e => (accs, some e)
      | .ok _ =>
      match ensureAccountActive accs tx.recipient with
      | .error e => (accs, some e)
      | .ok _ =>
      match tx.sender, tx.recipient with
      | some s_ref, some r_ref =>
        -- Кейс 1: внутренний перевод
        match lookupA s_ref accs with
        | none => (accs, some (.transient "AttributeError"))
        | some sender =>
          match debitAmounts cfg tx sender with
          | .error e => (accs, some e)
          | .ok (debit_amount, debit_fee) =>
            let total_debit := debit_amount + debit_fee
            let isPremium := match sender.kind with | .premium _ _ => true | .base => false
            if isPremium = false ∧ total_debit > sender.balance then
              (accs, some (.InsufficientFunds "Недостаточно средств для перевода."))
            else
              match sender.withdraw debit_amount with
              | .error e => (accs, some e)
              | .ok sender1 =>
                let accs1 := updateA s_ref sender1 accs
                match (if debit_fee > 0 then sender1.withdraw debit_fee else .ok sender1) with
                | .error e => (accs1, some e)
                | .ok sender2 =>
                  let accs2 := updateA s_ref sender2 accs1
                  -- re-fetch the recipient so that `s_ref = r_ref` aliasing
                  -- sees the sender mutations, as in the source
                  match lookupA r_ref accs2 with
                  | none => (accs2, some (.transient "AttributeError"))
                  | some recipient =>
                    match (if tx.currency ≠ recipient.currency then
                             cfg.convert amount tx.currency recipient.currency
                           else .ok amount) with
                    | .error e => (accs2, some e)
                    | .ok credit_amount =>
                      match recipient.deposit credit_amount with
                      | .error e => (accs2, some e)
                      | .ok recipient1 => (updateA r_ref recipient1 accs2, none)
      | none, some r_ref =>
        -- Кейс 2: внешнее зачисление
        match lookupA r_ref accs with
        | none => (accs, some (.transient "AttributeError"))
        | some recipient =>
          let credit_amount := amount - fee_total
          if credit_amount ≤ 0 then
            (accs, some (.InvalidOperation "Сумма после комиссии должна быть положительной."))
          else
            match (if tx.currency ≠ recipient.currency then
                     cfg.convert credit_amount tx.currency recipient.currency
                   else .ok credit_amount) with
            | .error e => (accs, some e)
            | .ok ca =>
              match recipient.deposit ca with
              | .error e => (accs, some e)
              | .ok recipient1 => (updateA r_ref recipient1 accs, none)
      | some s_ref, none =>
        -- Кейс 3: внешнее списание
        match lookupA s_ref accs with
        | none => (accs, some (.transient "AttributeError"))
        | some sender =>
          let d0 := amount + fee_total
          match (if tx.currency ≠ sender.currency then
                   cfg.convert d0 tx.currency sender.currency
                 else .ok d0) with
          | .error e => (accs, some e)
          | .ok debit_amount =>
            match sender.withdraw debit_amount with
            | .error e => (accs, some e)
            | .ok sender1 => (updateA s_ref sender1 accs, none)
      | none, none =>
        (accs, some (.InvalidOperation "Неверная конфигурация транзакции (нет отправителя и получателя)."))

/-- Full processor-side state: the queue, configuration, error log, optional
audit log and risk analyzer, plus the account objects the transactions
reference. -/
structure ProcState where
  queue : TransactionQueue
  config : ProcessorConfig
  error_log : List String
  audit_log : Option (List AuditRecord)
  risk_analyzer : Option RiskAnalyzer
  accounts : AccountMap

/-- In-place mutation of the popped transaction object, which lives in the
queue's id map. -/
def markInQueue (q : TransactionQueue) (tx_id : String)
    (f : Transaction → Transaction) : TransactionQueue :=
  match lookupA tx_id q.items with
  | none => q
  | some tx => { q with items := updateA tx_id (f tx) q.items }

/-- `RiskLevel.value`. -/
def RiskLevel.value : RiskLevel → String
  | .LOW => "low"
  | .MEDIUM => "medium"
  | .HIGH => "high"

/-- The execution-and-outcome phase of `process_next` (the `try` block): run
`_process_transaction`; on success mark processed; on a terminal error mark
failed and append to the error log; otherwise increment the attempt counter
and either fail with `temporary_error` (retries exhausted) or requeue with
the linear backoff `1 * attempts`. -/
def ProcState.execPhase (s : ProcState) (tx : Transaction) (now : ℤ) : ProcState × Bool :=
  match processTransaction s.config s.accounts tx with
  | (accs2, none) =>
    ({ s with accounts := accs2,
              queue := markInQueue s.queue tx.tx_id (·.mark_processed) }, true)
  | (accs2, some e) =>
    if e.isTerminal then
      ({ s with accounts := accs2,
                queue := markInQueue s.queue tx.tx_id (·.mark_failed e.msg),
                error_log := s.error_log ++ [tx.tx_id ++ ": " ++ e.typeName ++ ": " ++ e.msg] },
       true)
    else
      let attempts2 := tx.attempts + 1
      let q3 := markInQueue s.queue tx.tx_id (fun t => { t with attempts := attempts2 })
      if attempts2 > s.config.max_retries then
        ({ s with accounts := accs2,
                  queue := markInQueue q3 tx.tx_id (·.mark_failed ("temporary_error: " ++ e.msg)),
                  error_log := s.error_log ++ [tx.tx_id ++ ": temporary_error: " ++ e.msg] },
         true)
      else
        ({ s with accounts := accs2,
                  queue := q3.requeue tx.tx_id now (1 * (attempts2 : ℤ)) }, true)

/-- `TransactionProcessor.process_next`: pop the next ready transaction
(`false` when none), run the optional risk gate (audit entry per level,
block on `HIGH`), then the execution phase. -/
def ProcState.process_next (s : ProcState) (now : ℤ) : ProcState × Bool :=
  match s.queue.pop_ready now with
  | (none, q2) => ({ s with queue := q2 }, false)
  | (some tx, q2) =>
    let s1 := { s with queue := q2 }
    match s1.risk_analyzer with
    | none => s1.execPhase tx now
    | some ra =>
      let res := ra.assess tx.amount tx.currency (accountIdOf s1.accounts tx.sender)
        (accountIdOf s1.accounts tx.recipient) now
      let audit2 := match s1.audit_log with
        | none => none
        | some log =>
          let msg := "оценка риска: " ++ res.level.value
          let lvl := match res.level with
            | .HIGH => AuditLevel.ERROR
            | .MEDIUM => AuditLevel.WARNING
            | .LOW => AuditLevel.INFO
          some (log ++ [⟨lvl, msg, tx.tx_id⟩])
      let s2 := { s1 with risk_analyzer := some res.analyzer, audit_log := audit2 }
      if res.level = .HIGH then
        let reason := "Операция заблокирована службой рисков" ++
          (if res.reasons = [] then "" else ": " ++ String.intercalate ", " res.reasons)
        ({ s2 with queue := markInQueue s2.queue tx.tx_id (·.mark_failed reason) }, true)
      else s2.execPhase tx now

/-- Whether the optional risk gate of `process_next` blocks `tx`: there is a
configured analyzer and its assessed level is `HIGH`. -/
def riskBlocked (s : ProcState) (tx : Transaction) (now : ℤ) : Bool :=
  match s.risk_analyzer with
  | none => false
  | some ra =>
    decide ((ra.assess tx.amount tx.currency (accountIdOf s.accounts tx.sender)
      (accountIdOf s.accounts tx.recipient) now).level = .HIGH)

/-! ### Concrete states used by the counterexamples and witnesses -/

/-- `add`, keeping the queue unchanged when `add` raises (state-building
convenience for concrete runs). -/
def addD (q : TransactionQueue) (tx : Transaction) : TransactionQueue :=
  (q.add tx).toOption.getD q

/-- A low-priority transaction scheduled at time 0. -/
def txA : Transaction :=
  { tx_id := "a", tx_type := .TRANSFER, amount := 1, currency := .RUB,
    sender := none, recipient := some "r", scheduled_at := 0, priority := 0 }

/-- A high-priority transaction scheduled at time 1. -/
def txB : Transaction := { txA with tx_id := "b", scheduled_at := 1, priority := 5 }

/-- Queue holding `txA` then `txB`. -/
def qC1 : TransactionQueue := addD (addD TransactionQueue.empty txA) txB

/-- Queue holding `txA`, then requeued at time 0 with a 10-second delay. -/
def qC2 : TransactionQueue := (addD TransactionQueue.empty txA).requeue "a" 0 10

/-- A base RUB account with balance 1000. -/
def accA : Account :=
  { id := "A", balance := 1000, status := .ACTIVE, currency := .RUB, kind := .base }

/-- A base USD account with balance 0. -/
def accB : Account :=
  { id := "B", balance := 0, status := .ACTIVE, currency := .USD, kind := .base }

/-- A processor configuration registering only the RUB→USD rate 0.01. -/
def cfg6 : ProcessorConfig := { rates := [((Currency.RUB, Currency.USD), 1 / 100)] }

/-- Internal transfer A(RUB)→B(USD) of 100 RUB without fee. -/
def tx6 : Transaction :=
  { tx_id := "t1", tx_type := .TRANSFER, amount := 100, currency := .RUB,
    sender := some "A", recipient := some "B", scheduled_at := 0 }

/-- Processor state for the conversion scenario. -/
def s6 : ProcState :=
  { queue := addD TransactionQueue.empty tx6, config := cfg6, error_log := [],
    audit_log := none, risk_analyzer := none, accounts := [("A", accA), ("B", accB)] }

/-- A transaction whose sender reference is not an account object, so that
executing it raises an unrecognized (transient) error. -/
def txT : Transaction :=
  { tx_id := "t", tx_type := .TRANSFER, amount := 5, currency := .RUB,
    sender := some "ghost", recipient := none, scheduled_at := 0 }

/-- Initial state of the retry scenario (`max_retries = 2`). -/
def sT0 : ProcState :=
  { queue := addD TransactionQueue.empty txT, config := cfg6, error_log := [],
    audit_log := none, risk_analyzer := none, accounts := [] }

/-- After the first transient failure (processed at time 0). -/
def sT1 : ProcState := (sT0.process_next 0).1

/-- After the second transient failure (processed at time 1). -/
def sT2 : ProcState := (sT1.process_next 1).1

/-- After the third transient failure (processed at time 3): retries
exhausted, the transaction is `FAILED`. -/
def sT3 : ProcState := (sT2.process_next 3).1

/-- External credit of 10 RUB with a fixed fee of 3 onto account A. -/
def txC7 : Transaction :=
  { tx_id := "c", tx_type := .TRANSFER, amount := 10, currency := .RUB,
    sender := none, recipient := some "A", fee_fixed := 3, scheduled_at := 0 }

/-- A frozen RUB account. -/
def accF : Account :=
  { id := "F", balance := 100, status := .FROZEN, currency := .RUB, kind := .base }

/-- A transfer from the frozen account, doomed to the terminal
`AccountFrozenError`. -/
def txC8 : Transaction :=
  { tx_id := "f", tx_type := .TRANSFER, amount := 10, currency := .RUB,
    sender := some "F", recipient := some "A", scheduled_at := 0 }

/-- Processor state for the frozen-sender scenario. -/
def sC8 : ProcState :=
  { queue := addD TransactionQueue.empty txC8, config := cfg6, error_log := [],
    audit_log := none, risk_analyzer := none, accounts := [("F", accF), ("A", accA)] }

/-- A premium RUB account: overdraft limit 100, per-withdrawal fee 5. -/
def accP : Account :=
  { id := "P", balance := 0, status := .ACTIVE, currency := .RUB,
    kind := .premium 100 5 }

/-- Internal transfer P→A of 50 RUB with a transaction fee of 2. -/
def txP : Transaction :=
  { tx_id := "p", tx_type := .TRANSFER, amount := 50, currency := .RUB,
    sender := some "P", recipient := some "A", fee_fixed := 2, scheduled_at := 0 }

/-- The retry transaction as stored after exhausting its retries. -/
def txTfailed : Transaction := (lookupA "t" sT3.queue.items).getD txT

/-- Account map for the external-credit scenario. -/
def accsC7 : AccountMap := [("A", accA)]

/-- Account map for the premium-sender scenario. -/
def accsP : AccountMap := [("P", accP), ("A", accA)]

/-- Fresh analyzer with the default configuration. -/
def raS0 : RiskAnalyzer := RiskAnalyzer.init

/-- Analyzer after assessing one operation of sender S at time 40000. -/
def raS1 : RiskAnalyzer := (raS0.assess 10 .RUB "S" "R" 40000).analyzer

/-- Analyzer after a second operation of sender S at time 40010. -/
def raS2 : RiskAnalyzer := (raS1.assess 10 .RUB "S" "R" 40010).analyzer

/-! ## Theorems

General lemmas about the embedded operations, followed by one theorem per
claim (with counterexamples and witnesses where required). -/

theorem lookupA_updateA_self {α : Type} (k : String) (v : α) (l : List (String × α)) :
    lookupA k (updateA k v l) = some v := by
  induction l with
  | nil => simp [updateA, lookupA]
  | cons hd tl ih =>
    obtain ⟨k2, v2⟩ := hd
    by_cases h : k2 = k <;> simp [updateA, lookupA, h, ih]

theorem lookupA_updateA_ne {α : Type} {k k0 : String} (v : α) (l : List (String × α))
    (h : k0 ≠ k) : lookupA k0 (updateA k v l) = lookupA k0 l := by
  have hne : k ≠ k0 := fun h2 => h h2.symm
  induction l with
  | nil => simp [updateA, lookupA, hne]
  | cons hd tl ih =>
    obtain ⟨k2, v2⟩ := hd
    by_cases h2 : k2 = k
    · subst h2
      simp [updateA, lookupA, hne]
    · simp [updateA, lookupA, h2, ih]

theorem keyLt_or_keyLe (a b : QueueItem) : keyLt a b ∨ keyLe b a := by
  unfold keyLt keyLe keyLt QueueItem.key
  rcases lt_trichotomy a.scheduled_at b.scheduled_at with h | h | h
  · exact Or.inl (Or.inl h)
  · rcases lt_trichotomy a.neg_priority b.neg_priority with h2 | h2 | h2
    · exact Or.inl (Or.inr ⟨h, Or.inl h2⟩)
    · rcases lt_trichotomy a.order b.order with h3 | h3 | h3
      · exact Or.inl (Or.inr ⟨h, Or.inr ⟨h2, h3⟩⟩)
      · exact Or.inr (Or.inr (by simp [h, h2, h3]))
      · exact Or.inr (Or.inl (Or.inr ⟨h.symm, Or.inr ⟨h2.symm, h3⟩⟩))
    · exact Or.inr (Or.inl (Or.inr ⟨h.symm, Or.inl h2⟩))
  · exact Or.inr (Or.inl (Or.inl h))

theorem keyLt_asymm {a b : QueueItem} (h : keyLt a b) : ¬ keyLt b a := by
  unfold keyLt at *
  rcases h with h | ⟨he, h⟩
  · rintro (h2 | ⟨he2, h2⟩)
    · exact absurd (h.trans h2) (lt_irrefl _)
    · exact absurd h (by simp [he2])
  · rintro (h2 | ⟨he2, h2⟩)
    · exact absurd h2 (by simp [he])
    · rcases h with h | ⟨hp, h⟩
      · rcases h2 with h2 | ⟨hp2, h2⟩
        · exact absurd (h.trans h2) (lt_irrefl _)
        · exact absurd h (by simp [hp2])
      · rcases h2 with h2 | ⟨hp2, h2⟩
        · exact absurd h2 (by simp [hp])
        · exact absurd (h.trans h2) (lt_irrefl _)

theorem keyLt_irrefl (a : QueueItem) : ¬ keyLt a a := by
  intro h
  exact keyLt_asymm h h

theorem keyLt_of_keyLe_of_keyLt {a b c : QueueItem} (h1 : keyLe a b) (h2 : keyLt b c) :
    keyLt a c := by
  rcases h1 with h1 | h1
  · unfold keyLt at *
    rcases h1 with h1 | ⟨he1, h1⟩ <;> rcases h2 with h2 | ⟨he2, h2⟩
    · exact Or.inl (h1.trans h2)
    · exact Or.inl (lt_of_lt_of_eq h1 he2)
    · exact Or.inl (lt_of_eq_of_lt he1 h2)
    · refine Or.inr ⟨he1.trans he2, ?_⟩
      rcases h1 with h1 | ⟨hp1, h1⟩ <;> rcases h2 with h2 | ⟨hp2, h2⟩
      · exact Or.inl (h1.trans h2)
      · exact Or.inl (lt_of_lt_of_eq h1 hp2)
      · exact Or.inl (lt_of_eq_of_lt hp1 h2)
      · exact Or.inr ⟨hp1.trans hp2, h1.trans h2⟩
  · unfold QueueItem.key at h1
    unfold keyLt at *
    have e1 : a.scheduled_at = b.scheduled_at := congrArg Prod.fst h1
    have e2 : a.neg_priority = b.neg_priority := congrArg (fun p => p.2.1) h1
    have e3 : a.order = b.order := congrArg (fun p => p.2.2) h1
    rw [e1, e2, e3]
    exact h2

/-- Sorted heaps have their minimum at the head: `keyLe top x` for every
later entry. -/
theorem sorted_head_le {top : QueueItem} {rest : List QueueItem}
    (h : (top :: rest).Pairwise keyLe) : ∀ x ∈ rest, keyLe top x :=
  (List.pairwise_cons.mp h).1

/-- `pop_ready` never touches the id map (or the order counter). -/
theorem pop_ready_items (q : TransactionQueue) (now : ℤ) :
    (q.pop_ready now).2.items = q.items := rfl

/-- If the pop loop returns a transaction, it is `PENDING` and was reached
through a heap entry whose recorded `scheduled_at` is at most `now`. -/
theorem popReadyAux_sound (items : List (String × Transaction)) (now : ℤ)
    (l : List QueueItem) (tx : Transaction)
    (h : (popReadyAux items now l).1 = some tx) :
    tx.status = .PENDING ∧
      ∃ e ∈ l, lookupA e.tx_id items = some tx ∧ e.scheduled_at ≤ now := by
  induction l with
  | nil => simp [popReadyAux] at h
  | cons top rest ih =>
    by_cases hfut : now < top.scheduled_at
    · simp [popReadyAux, hfut] at h
    · rw [popReadyAux, if_neg hfut] at h
      cases hl : lookupA top.tx_id items with
      | none =>
        rw [hl] at h
        obtain ⟨hp, e, he, h2⟩ := ih h
        exact ⟨hp, e, List.mem_cons_of_mem _ he, h2⟩
      | some tx2 =>
        rw [hl] at h
        by_cases hp : tx2.status = .PENDING
        · simp [hp] at h
          subst h
          exact ⟨hp, top, List.mem_cons_self _ _, hl, le_of_not_lt hfut⟩
        · simp [hp] at h
          obtain ⟨hp2, e, he, h2⟩ := ih h
          exact ⟨hp2, e, List.mem_cons_of_mem _ he, h2⟩

/-- The pop loop never returns a transaction all of whose heap entries are
strictly dominated (in the `(scheduled_at, -priority, order)` key order) by
the entry of some ready `PENDING` transaction. -/
theorem popReadyAux_not_dominated (items : List (String × Transaction)) (now : ℤ)
    (l : List QueueItem) (e : QueueItem) (b : String) (tx : Transaction)
    (hwf : ∀ e2 ∈ l, ∀ t, lookupA e2.tx_id items = some t → t.tx_id = e2.tx_id)
    (hsort : l.Pairwise keyLe)
    (hmem : e ∈ l)
    (hlook : lookupA e.tx_id items = some tx)
    (hpend : tx.status = .PENDING)
    (hready : e.scheduled_at ≤ now)
    (hdom : ∀ e2 ∈ l, e2.tx_id = b → keyLt e e2) :
    ∀ r, (popReadyAux items now l).1 = some r → r.tx_id ≠ b := by
  induction l with
  | nil => simp at hmem
  | cons top rest ih =>
    intro r hr
    by_cases hfut : now < top.scheduled_at
    · simp [popReadyAux, hfut] at hr
    · rw [popReadyAux, if_neg hfut] at hr
      cases hl : lookupA top.tx_id items with
      | none =>
        rw [hl] at hr
        have hetop : e ≠ top := by
          intro he
          rw [he, hl] at hlook
          exact Option.noConfusion hlook
        have hmem2 : e ∈ rest := (List.mem_cons.mp hmem).resolve_left hetop
        exact ih (fun e2 he2 => hwf e2 (List.mem_cons_of_mem _ he2))
          (List.Pairwise.of_cons hsort) hmem2
          (fun e2 he2 => hdom e2 (List.mem_cons_of_mem _ he2)) r hr
      | some tx2 =>
        rw [hl] at hr
        by_cases hp : tx2.status = .PENDING
        · simp [hp] at hr
          subst hr
          intro hb
          have hid : tx2.tx_id = top.tx_id := hwf top (List.mem_cons_self _ _) tx2 hl
          have hdt : keyLt e top := hdom top (List.mem_cons_self _ _) (hid ▸ hb)
          rcases List.mem_cons.mp hmem with he | he
          · rw [he] at hdt
            exact keyLt_irrefl top hdt
          · exact keyLt_irrefl top
              (keyLt_of_keyLe_of_keyLt (sorted_head_le hsort e he) hdt)
        · simp [hp] at hr
          have hetop : e ≠ top := by
            intro he
            rw [he, hl] at hlook
            injection hlook with h2
            rw [h2] at hp
            exact hp hpend
          have hmem2 : e ∈ rest := (List.mem_cons.mp hmem).resolve_left hetop
          exact ih (fun e2 he2 => hwf e2 (List.mem_cons_of_mem _ he2))
            (List.Pairwise.of_cons hsort) hmem2
            (fun e2 he2 => hdom e2 (List.mem_cons_of_mem _ he2)) r hr

/-- C1 (corrected).  The heap orders entries by
`(scheduled_at, -priority, order)`, so among simultaneously ready pending
transactions `pop_ready` dequeues the one with the minimal entry key: the
earlier `scheduled_at` wins regardless of priority, and only among entries
with equal `scheduled_at` does the strictly higher priority win, with ties
broken by insertion sequence.  Formally: `pop_ready` never returns `txb`
while the heap holds a ready `PENDING` transaction one of whose entries
strictly key-dominates every entry of `txb`. -/
theorem C1_pop_order_amended (q : TransactionQueue) (now : ℤ) (e : QueueItem)
    (tx txb : Transaction)
    (hwf : ∀ e2 ∈ q.heap, ∀ t, lookupA e2.tx_id q.items = some t → t.tx_id = e2.tx_id)
    (hsort : q.heap.Pairwise keyLe)
    (hmem : e ∈ q.heap)
    (hlook : lookupA e.tx_id q.items = some tx)
    (hpend : tx.status = .PENDING)
    (hready : e.scheduled_at ≤ now)
    (hdom : ∀ e2 ∈ q.heap, e2.tx_id = txb.tx_id → keyLt e e2) :
    (q.pop_ready now).1 ≠ some txb := by
  intro hr
  exact popReadyAux_not_dominated q.items now q.heap e txb.tx_id tx hwf hsort hmem
    hlook hpend hready hdom txb hr rfl

/-- C1 counterexample: `txA` (priority 0, scheduled at 0) and `txB`
(priority 5, scheduled at 1) are both ready and `PENDING` at `now = 10`,
yet `pop_ready` dequeues the strictly lower-priority `txA` first, because
the heap key compares `scheduled_at` before priority. -/
theorem C1_counterexample :
    txA.priority < txB.priority ∧ txB.scheduled_at ≤ 10 ∧ txA.scheduled_at ≤ 10 ∧
    lookupA "a" qC1.items = some txA ∧ lookupA "b" qC1.items = some txB ∧
    txA.status = .PENDING ∧ txB.status = .PENDING ∧
    (qC1.pop_ready 10).1 = some txA := by
  refine ⟨by decide, by decide, by decide, rfl, rfl, rfl, rfl, rfl⟩

/-- Witness for `C1_pop_order_amended` at the concrete queue `qC1`:
`txA`'s entry `(0, 0, 1)` strictly dominates `txB`'s entry `(1, -5, 2)`, so
`pop_ready` cannot return `txB`. -/
theorem C1_witness : (qC1.pop_ready 10).1 ≠ some txB := by
  apply C1_pop_order_amended qC1 10 ⟨0, 0, 1, "a"⟩ txA txB
  · intro e2 he2 t h
    have hh : qC1.heap = [⟨0, 0, 1, "a"⟩, ⟨1, -5, 2, "b"⟩] := rfl
    rw [hh] at he2
    rcases List.mem_cons.mp he2 with h2 | h2
    · subst h2
      have : t = txA := by
        have hx : lookupA "a" qC1.items = some txA := rfl
        rw [show (⟨0, 0, 1, "a"⟩ : QueueItem).tx_id = "a" from rfl, hx] at h
        exact Option.some.inj h.symm
      rw [this]
      rfl
    · have h3 : e2 = ⟨1, -5, 2, "b"⟩ := by simpa using h2
      subst h3
      have : t = txB := by
        have hx : lookupA "b" qC1.items = some txB := rfl
        rw [show (⟨1, -5, 2, "b"⟩ : QueueItem).tx_id = "b" from rfl, hx] at h
        exact Option.some.inj h.symm
      rw [this]
      rfl
  · decide
  · decide
  · rfl
  · rfl
  · decide
  · decide

/-- C2 (corrected).  `pop_ready` always returns a `PENDING` transaction,
and its `scheduled_at ≤ now` holds under the additional hypothesis that
every heap entry agrees with its transaction's current `scheduled_at`
field — true of add-only states, but breakable by `requeue`, which leaves
the old heap entry behind while moving the transaction's `scheduled_at`
forward. -/
theorem C2_pop_ready_amended (q : TransactionQueue) (now : ℤ) (tx : Transaction)
    (h : (q.pop_ready now).1 = some tx) :
    tx.status = .PENDING ∧
      ((∀ e ∈ q.heap, ∀ t, lookupA e.tx_id q.items = some t →
          e.scheduled_at = t.scheduled_at) →
        tx.scheduled_at ≤ now) := by
  obtain ⟨hp, e, he, hl, hsched⟩ := popReadyAux_sound q.items now q.heap tx h
  refine ⟨hp, fun hmatch => ?_⟩
  rw [← hmatch e he tx hl]
  exact hsched

/-- C2 counterexample: after `add txA` (scheduled at 0) and
`requeue("a", delay 10)` at time 0, the transaction's `scheduled_at` is 10,
yet `pop_ready(0)` still returns it through the stale heap entry recorded
at time 0 — a transaction whose `scheduled_at` is after `now`. -/
theorem C2_counterexample :
    (qC2.pop_ready 0).1 = some { txA with scheduled_at := 10 } ∧
      ¬ ({ txA with scheduled_at := 10 } : Transaction).scheduled_at ≤ (0 : ℤ) := by
  exact ⟨rfl, by decide⟩

/-- Witness for `C2_pop_ready_amended` at the add-only queue `qC1`. -/
theorem C2_witness : txA.status = .PENDING ∧ txA.scheduled_at ≤ 10 := by
  have h := C2_pop_ready_amended qC1 10 txA rfl
  refine ⟨h.1, h.2 ?_⟩
  intro e he t hl
  have hh : qC1.heap = [⟨0, 0, 1, "a"⟩, ⟨1, -5, 2, "b"⟩] := rfl
  rw [hh] at he
  rcases List.mem_cons.mp he with h2 | h2
  · subst h2
    have hx : lookupA "a" qC1.items = some txA := rfl
    rw [show (⟨0, 0, 1, "a"⟩ : QueueItem).tx_id = "a" from rfl, hx] at hl
    rw [← Option.some.inj hl]
    rfl
  · have h3 : e = ⟨1, -5, 2, "b"⟩ := by simpa using h2
    subst h3
    have hx : lookupA "b" qC1.items = some txB := rfl
    rw [show (⟨1, -5, 2, "b"⟩ : QueueItem).tx_id = "b" from rfl, hx] at hl
    rw [← Option.some.inj hl]
    rfl

/-- `markInQueue` leaves every other key of the id map unchanged. -/
theorem lookupA_markInQueue_ne (q : TransactionQueue) (k : String)
    (f : Transaction → Transaction) (id0 : String) (h : id0 ≠ k) :
    lookupA id0 (markInQueue q k f).items = lookupA id0 q.items := by
  unfold markInQueue
  cases hl : lookupA k q.items with
  | none => rfl
  | some tx => exact lookupA_updateA_ne _ _ h

/-- `requeue` leaves every other key of the id map unchanged. -/
theorem lookupA_requeue_ne (q : TransactionQueue) (k : String) (now d : ℤ)
    (id0 : String) (h : id0 ≠ k) :
    lookupA id0 (q.requeue k now d).items = lookupA id0 q.items := by
  unfold TransactionQueue.requeue
  cases hl : lookupA k q.items with
  | none => rfl
  | some tx =>
    by_cases hp : tx.status ≠ .PENDING
    · simp [hp]
    · simp [hp]
      exact lookupA_updateA_ne _ _ h

/-- The execution phase only mutates the popped transaction's map entry. -/
theorem execPhase_items_ne (s : ProcState) (tx : Transaction) (now : ℤ)
    (id0 : String) (h : id0 ≠ tx.tx_id) :
    lookupA id0 (s.execPhase tx now).1.queue.items = lookupA id0 s.queue.items := by
  unfold ProcState.execPhase
  rcases hpt : processTransaction s.config s.accounts tx with ⟨accs2, oe⟩
  cases oe with
  | none => exact lookupA_markInQueue_ne _ _ _ _ h
  | some e =>
    by_cases ht : e.isTerminal
    · simp only [ht]
      exact lookupA_markInQueue_ne _ _ _ _ h
    · simp only [Bool.not_eq_true] at ht
      simp only [ht, Bool.false_eq_true, if_false]
      by_cases hatt : tx.attempts + 1 > s.config.max_retries
      · simp only [hatt, if_true]
        rw [lookupA_markInQueue_ne _ _ _ _ h, lookupA_markInQueue_ne _ _ _ _ h]
      · simp only [hatt, if_false]
        rw [lookupA_requeue_ne _ _ _ _ _ h, lookupA_markInQueue_ne _ _ _ _ h]

/-- `process_next` only mutates the popped transaction's map entry. -/
theorem process_next_items_ne (s : ProcState) (now : ℤ) (tx : Transaction)
    (q2 : TransactionQueue) (id0 : String)
    (hpop : s.queue.pop_ready now = (some tx, q2)) (h : id0 ≠ tx.tx_id) :
    lookupA id0 (s.process_next now).1.queue.items = lookupA id0 s.queue.items := by
  have hq2 : q2.items = s.queue.items := by
    rw [← pop_ready_items s.queue now, hpop]
  unfold ProcState.process_next
  rw [hpop]
  cases hra : s.risk_analyzer with
  | none =>
    rw [execPhase_items_ne _ tx now id0 h]
    exact congrArg (lookupA id0) hq2
  | some ra =>
    by_cases hl : (ra.assess tx.amount tx.currency (accountIdOf s.accounts tx.sender)
        (accountIdOf s.accounts tx.recipient) now).level = .HIGH
    · simp only [hl, if_true]
      rw [lookupA_markInQueue_ne _ _ _ _ h]
      exact congrArg (lookupA id0) hq2
    · simp only [hl, if_false]
      rw [execPhase_items_ne _ tx now id0 h]
      exact congrArg (lookupA id0) hq2

/-- C3 (corrected).  `PROCESSED` and `CANCELLED` are terminal under every
operation, and all operations except `cancel` also preserve `FAILED`; but
`TransactionQueue.cancel` only refuses `PROCESSED`/`CANCELLED` targets, so
a `FAILED` transaction is re-labelled `CANCELLED` (with the new reason) and
`cancel` returns `true` — the `FAILED` state is re-enterable into
`CANCELLED`, against the one-way lifecycle. -/
theorem C3_lifecycle_amended :
    (∀ (q : TransactionQueue) (id r id0 : String) (tx0 : Transaction),
       lookupA id0 q.items = some tx0 →
       tx0.status = .PROCESSED ∨ tx0.status = .CANCELLED →
       lookupA id0 (q.cancel id r).2.items = some tx0) ∧
    (∀ (q : TransactionQueue) (id r : String) (tx0 : Transaction),
       lookupA id q.items = some tx0 →
       tx0.status = .PROCESSED ∨ tx0.status = .CANCELLED →
       (q.cancel id r).1 = false) ∧
    (∀ (q : TransactionQueue) (now : ℤ) (id0 : String),
       lookupA id0 (q.pop_ready now).2.items = lookupA id0 q.items) ∧
    (∀ (q : TransactionQueue) (id : String) (now d : ℤ) (id0 : String) (tx0 : Transaction),
       lookupA id0 q.items = some tx0 →
       ∃ tx1, lookupA id0 (q.requeue id now d).items = some tx1 ∧
         tx1.status = tx0.status) ∧
    (∀ (q : TransactionQueue) (tx : Transaction) (q2 : TransactionQueue),
       q.add tx = .ok q2 → ∀ (id0 : String) (tx0 : Transaction),
       lookupA id0 q.items = some tx0 → lookupA id0 q2.items = some tx0) ∧
    (∀ (s : ProcState) (now : ℤ) (id0 : String) (tx0 : Transaction),
       (∀ (k : String) (t : Transaction), lookupA k s.queue.items = some t → t.tx_id = k) →
       lookupA id0 s.queue.items = some tx0 →
       tx0.status = .PROCESSED ∨ tx0.status = .CANCELLED ∨ tx0.status = .FAILED →
       lookupA id0 (s.process_next now).1.queue.items = some tx0) ∧
    (∀ (q : TransactionQueue) (id r : String) (tx0 : Transaction),
       lookupA id q.items = some tx0 → tx0.status = .FAILED →
       (q.cancel id r).1 = true ∧
       lookupA id (q.cancel id r).2.items = some (tx0.cancelTx r)) := by
  refine ⟨?_, ?_, ?_, ?_, ?_, ?_, ?_⟩
  · intro q id r id0 tx0 hl ht
    unfold TransactionQueue.cancel
    cases hli : lookupA id q.items with
    | none => exact hl
    | some tx =>
      by_cases hs : tx.status = .PROCESSED ∨ tx.status = .CANCELLED
      · simp only [hs, if_true]
        exact hl
      · simp only [hs, if_false]
        have hne : id0 ≠ id := by
          intro he
          subst he
          rw [hl] at hli
          injection hli with h2
          rw [← h2] at hs
          exact hs ht
        rw [lookupA_updateA_ne _ _ hne]
        exact hl
  · intro q id r tx0 hl ht
    unfold TransactionQueue.cancel
    rw [hl]
    simp only [ht, if_true]
  · intro q now id0
    rfl
  · intro q id now d id0 tx0 hl
    unfold TransactionQueue.requeue
    cases hli : lookupA id q.items with
    | none => exact ⟨tx0, hl, rfl⟩
    | some tx =>
      dsimp only
      by_cases hp : tx.status ≠ .PENDING
      · rw [if_pos hp]
        exact ⟨tx0, hl, rfl⟩
      · rw [if_neg hp]
        by_cases hne : id0 = id
        · subst hne
          rw [hl] at hli
          injection hli with h2
          subst h2
          exact ⟨_, lookupA_updateA_self _ _ _, rfl⟩
        · rw [lookupA_updateA_ne _ _ hne]
          exact ⟨tx0, hl, rfl⟩
  · intro q tx q2 hadd id0 tx0 hl
    unfold TransactionQueue.add at hadd
    cases hli : lookupA tx.tx_id q.items with
    | some t =>
      rw [hli] at hadd
      exact Except.noConfusion hadd
    | none =>
      rw [hli] at hadd
      injection hadd with h2
      subst h2
      have hne : id0 ≠ tx.tx_id := by
        intro he
        subst he
        rw [hl] at hli
        exact Option.noConfusion hli
      simpa [lookupA_updateA_ne _ _ hne] using hl
  · intro s now id0 tx0 hwf hl ht
    cases hpop : s.queue.pop_ready now with
    | mk otx q2 =>
      cases otx with
      | none =>
        have hq2 : q2.items = s.queue.items := by
          rw [← pop_ready_items s.queue now, hpop]
        unfold ProcState.process_next
        rw [hpop]
        simpa [hq2] using hl
      | some tx =>
        obtain ⟨hp, e, he, hle, hsched⟩ :=
          popReadyAux_sound s.queue.items now s.queue.heap tx
            (by rw [show (popReadyAux s.queue.items now s.queue.heap).1 =
                      (s.queue.pop_ready now).1 from rfl, hpop])
        have hid : tx.tx_id = e.tx_id := hwf e.tx_id tx hle
        have hne : id0 ≠ tx.tx_id := by
          intro hex
          rw [hid] at hex
          subst hex
          rw [hl] at hle
          injection hle with h2
          rw [← h2] at hp
          rcases ht with h3 | h3 | h3 <;> rw [h3] at hp <;> exact TransactionStatus.noConfusion hp
        rw [process_next_items_ne s now tx q2 id0 hpop hne]
        exact hl
  · intro q id r tx0 hl hf
    unfold TransactionQueue.cancel
    rw [hl]
    dsimp only
    have hs : ¬ (tx0.status = .PROCESSED ∨ tx0.status = .CANCELLED) := by
      rw [hf]
      rintro (h2 | h2) <;> exact TransactionStatus.noConfusion h2
    rw [if_neg hs]
    exact ⟨rfl, lookupA_updateA_self _ _ _⟩

/-- C3 counterexample: in the reachable state `sT3` (produced by `add` and
three `process_next` calls) transaction `"t"` is `FAILED`, yet `cancel`
returns `true` and re-labels it `CANCELLED` — a terminal status changes. -/
theorem C3_counterexample :
    (lookupA "t" sT3.queue.items).map (·.status) = some .FAILED ∧
    (sT3.queue.cancel "t" "cancelled_by_user").1 = true ∧
    (lookupA "t" (sT3.queue.cancel "t" "cancelled_by_user").2.items).map (·.status) =
      some .CANCELLED := by
  exact ⟨rfl, rfl, rfl⟩

/-- Witness for `C3_lifecycle_amended`: its `cancel`-on-`FAILED` conjunct
applied to the concrete reachable state `sT3`. -/
theorem C3_witness :
    (sT3.queue.cancel "t" "because").1 = true ∧
    lookupA "t" (sT3.queue.cancel "t" "because").2.items =
      some (txTfailed.cancelTx "because") := by
  exact C3_lifecycle_amended.2.2.2.2.2.2 sT3.queue "t" "because" txTfailed rfl rfl

/-- Behaviour of the execution phase on a transient error: increment the
attempt counter, then fail with `temporary_error` past the retry budget or
requeue with the linear backoff. -/
theorem execPhase_transient (s : ProcState) (tx : Transaction) (now : ℤ) (m : String)
    (accs2 : AccountMap)
    (hpt : processTransaction s.config s.accounts tx = (accs2, some (.transient m)))
    (hlook : lookupA tx.tx_id s.queue.items = some tx)
    (hpend : tx.status = .PENDING) :
    (s.execPhase tx now).2 = true ∧
    (tx.attempts + 1 > s.config.max_retries →
      lookupA tx.tx_id (s.execPhase tx now).1.queue.items =
        some (({ tx with attempts := tx.attempts + 1 }).mark_failed
          ("temporary_error: " ++ m)) ∧
      (s.execPhase tx now).1.error_log =
        s.error_log ++ [tx.tx_id ++ ": temporary_error: " ++ m]) ∧
    (¬ tx.attempts + 1 > s.config.max_retries →
      lookupA tx.tx_id (s.execPhase tx now).1.queue.items =
        some { tx with attempts := tx.attempts + 1,
                       scheduled_at := now + ((tx.attempts + 1 : ℕ) : ℤ) } ∧
      (s.execPhase tx now).1.queue.heap =
        heapPush ⟨now + ((tx.attempts + 1 : ℕ) : ℤ), -tx.priority,
          s.queue.order_seq + 1, tx.tx_id⟩ s.queue.heap ∧
      (s.execPhase tx now).1.error_log = s.error_log) := by
  have hq3 : markInQueue s.queue tx.tx_id (fun t => { t with attempts := tx.attempts + 1 }) =
      { heap := s.queue.heap,
        items := updateA tx.tx_id { tx with attempts := tx.attempts + 1 } s.queue.items,
        order_seq := s.queue.order_seq } := by
    unfold markInQueue
    rw [hlook]
  unfold ProcState.execPhase
  rw [hpt]
  dsimp only
  simp only [PErr.isTerminal, Bool.false_eq_true, if_false]
  by_cases hatt : tx.attempts + 1 > s.config.max_retries
  · rw [if_pos hatt]
    refine ⟨rfl, fun _ => ⟨?_, rfl⟩, fun h2 => absurd hatt h2⟩
    rw [hq3]
    unfold markInQueue
    dsimp only
    rw [lookupA_updateA_self]
    dsimp only
    rw [lookupA_updateA_self]
    rfl
  · rw [if_neg hatt]
    refine ⟨rfl, fun h2 => absurd h2 hatt, fun _ => ?_⟩
    rw [hq3]
    unfold TransactionQueue.requeue
    dsimp only
    rw [lookupA_updateA_self]
    dsimp only
    have hnp : ¬ ({ tx with attempts := tx.attempts + 1 } : Transaction).status ≠ .PENDING := by
      dsimp only
      rw [hpend]
      exact fun h2 => h2 rfl
    rw [if_neg hnp]
    have hdel : (1 : ℤ) * ((tx.attempts + 1 : ℕ) : ℤ) > 0 := by
      rw [one_mul]
      exact_mod_cast Nat.succ_pos tx.attempts
    rw [if_pos hdel, one_mul]
    dsimp only
    refine ⟨?_, rfl, rfl⟩
    rw [lookupA_updateA_self]

/-- When the pop succeeds and the risk gate does not block, `process_next`
is the execution phase of a state sharing the configuration, accounts and
error log, with the popped queue. -/
theorem process_next_exec_form (s : ProcState) (now : ℤ) (tx : Transaction)
    (q2 : TransactionQueue)
    (hpop : s.queue.pop_ready now = (some tx, q2))
    (hblock : riskBlocked s tx now = false) :
    ∃ s2 : ProcState, s.process_next now = s2.execPhase tx now ∧
      s2.config = s.config ∧ s2.accounts = s.accounts ∧
      s2.error_log = s.error_log ∧ s2.queue = q2 := by
  unfold ProcState.process_next
  rw [hpop]
  cases hra : s.risk_analyzer with
  | none =>
    dsimp only
    exact ⟨_, rfl, rfl, rfl, rfl, rfl⟩
  | some ra =>
    unfold riskBlocked at hblock
    rw [hra] at hblock
    have hlevel : ¬ ((ra.assess tx.amount tx.currency (accountIdOf s.accounts tx.sender)
        (accountIdOf s.accounts tx.recipient) now).level = .HIGH) := by
      simpa using hblock
    dsimp only
    rw [if_neg hlevel]
    exact ⟨_, rfl, rfl, rfl, rfl, rfl⟩

/-- C4 (confirmed).  When `process_next(now)` pops a transaction whose
execution raises an unrecognized (transient) error (the optional risk gate,
when configured, not having blocked it), the attempt counter is
incremented; if the new count exceeds `max_retries` the transaction is
marked `FAILED` with a `temporary_error` reason and the error is logged,
otherwise it stays `PENDING` and is requeued with
`scheduled_at = now + attempts · 1s` (a fresh heap entry with the new time);
`process_next` returns `true` ("processed") either way. -/
theorem C4_retry_backoff (s : ProcState) (now : ℤ) (tx : Transaction)
    (q2 : TransactionQueue) (m : String)
    (hpop : s.queue.pop_ready now = (some tx, q2))
    (hlook : lookupA tx.tx_id s.queue.items = some tx)
    (hblock : riskBlocked s tx now = false)
    (herr : (processTransaction s.config s.accounts tx).2 = some (.transient m)) :
    (s.process_next now).2 = true ∧
    (tx.attempts + 1 > s.config.max_retries →
      lookupA tx.tx_id (s.process_next now).1.queue.items =
        some (({ tx with attempts := tx.attempts + 1 }).mark_failed
          ("temporary_error: " ++ m)) ∧
      (s.process_next now).1.error_log =
        s.error_log ++ [tx.tx_id ++ ": temporary_error: " ++ m]) ∧
    (¬ tx.attempts + 1 > s.config.max_retries →
      lookupA tx.tx_id (s.process_next now).1.queue.items =
        some { tx with attempts := tx.attempts + 1,
                       scheduled_at := now + ((tx.attempts + 1 : ℕ) : ℤ) } ∧
      (s.process_next now).1.queue.heap =
        heapPush ⟨now + ((tx.attempts + 1 : ℕ) : ℤ), -tx.priority,
          q2.order_seq + 1, tx.tx_id⟩ q2.heap ∧
      ({ tx with attempts := tx.attempts + 1 } : Transaction).status = .PENDING) := by
  have hq2i : q2.items = s.queue.items := by
    rw [← pop_ready_items s.queue now, hpop]
  have hpend : tx.status = .PENDING := by
    obtain ⟨hp, -⟩ := popReadyAux_sound s.queue.items now s.queue.heap tx
      (by rw [show (popReadyAux s.queue.items now s.queue.heap).1 =
                (s.queue.pop_ready now).1 from rfl, hpop])
    exact hp
  rcases hpt : processTransaction s.config s.accounts tx with ⟨accs2, oe⟩
  have hoe : oe = some (.transient m) := by
    rw [hpt] at herr
    exact herr
  subst hoe
  obtain ⟨s2, heq, hcfg, hacc, herrlog, hq⟩ :=
    process_next_exec_form s now tx q2 hpop hblock
  have key := execPhase_transient s2 tx now m accs2
    (by rw [hcfg, hacc]; exact hpt)
    (by rw [hq, hq2i]; exact hlook) hpend
  rw [heq]
  refine ⟨key.1, fun h2 => ?_, fun h2 => ?_⟩
  · have k := key.2.1 (by rw [hcfg]; exact h2)
    rw [herrlog] at k
    exact k
  · have k := key.2.2 (by rw [hcfg]; exact h2)
    rw [hq] at k
    exact ⟨k.1, k.2.1, by dsimp only; exact hpend⟩

/-- Witness for `C4_retry_backoff`: the first transient failure of `txT`
requeues it with `attempts = 1` and `scheduled_at = 0 + 1`. -/
theorem C4_witness :
    (sT0.process_next 0).2 = true ∧
    lookupA "t" (sT0.process_next 0).1.queue.items =
      some { txT with attempts := 1, scheduled_at := 1 } := by
  have h := C4_retry_backoff sT0 0 txT
    { heap := [], items := [("t", txT)], order_seq := 1 } "AttributeError"
    rfl rfl rfl rfl
  refine ⟨h.1, ?_⟩
  have h2 := (h.2.2 (by decide)).1
  exact h2

/-- Rule 3 never downgrades a `HIGH` level. -/
theorem ruleNewRecipient_level_high (kr : List (String × List String))
    (s r : String) (reasons : List String) :
    (ruleNewRecipient kr s r (.HIGH, reasons)).1.1 = .HIGH := by
  unfold ruleNewRecipient
  by_cases hs0 : s = ""
  · rw [if_pos hs0]
  · rw [if_neg hs0]
    dsimp only
    by_cases hc : r ≠ "" ∧ r ∉ (lookupA s kr).getD []
    · rw [if_pos hc]
      rfl
    · rw [if_neg hc]

/-- Rule 4 never downgrades a `HIGH` level. -/
theorem ruleNight_level_high (cfg : RiskConfig) (now : ℤ) (reasons : List String) :
    (ruleNight cfg now (.HIGH, reasons)).1 = .HIGH := by
  unfold ruleNight
  by_cases hn : RiskAnalyzer.is_night cfg now
  · rw [if_pos hn]
    rfl
  · rw [if_neg hn]

/-- Rule 3 at most appends its own reason string. -/
theorem ruleNewRecipient_reasons (kr : List (String × List String))
    (s r : String) (lr : RiskLevel × List String) :
    (ruleNewRecipient kr s r lr).1.2 = lr.2 ∨
      (ruleNewRecipient kr s r lr).1.2 = lr.2 ++ ["перевод на новый счёт"] := by
  unfold ruleNewRecipient
  by_cases hs0 : s = ""
  · rw [if_pos hs0]
    exact Or.inl rfl
  · rw [if_neg hs0]
    dsimp only
    by_cases hc : r ≠ "" ∧ r ∉ (lookupA s kr).getD []
    · rw [if_pos hc]
      exact Or.inr rfl
    · rw [if_neg hc]
      exact Or.inl rfl

/-- Rule 4 at most appends its own reason string. -/
theorem ruleNight_reasons (cfg : RiskConfig) (now : ℤ) (lr : RiskLevel × List String) :
    (ruleNight cfg now lr).2 = lr.2 ∨
      (ruleNight cfg now lr).2 = lr.2 ++ ["операция ночью"] := by
  unfold ruleNight
  by_cases hn : RiskAnalyzer.is_night cfg now
  · rw [if_pos hn]
    exact Or.inr rfl
  · rw [if_neg hn]
    exact Or.inl rfl

/-- Rule 1 produces at most its own reason string. -/
theorem ruleLargeAmount_reasons (cfg : RiskConfig) (amount : ℚ) (currency : Currency) :
    (ruleLargeAmount cfg amount currency).2 = [] ∨
      (ruleLargeAmount cfg amount currency).2 = ["крупная сумма"] := by
  unfold ruleLargeAmount
  rcases cfg.large_amount_threshold currency with - | t
  · exact Or.inl rfl
  · dsimp only
    by_cases ht : t ≤ amount
    · rw [if_pos ht]
      exact Or.inr rfl
    · rw [if_neg ht]
      exact Or.inl rfl

/-- C5 (confirmed).  The frequency rule of `assess` prunes the sender's
timestamps older than `now − window` and appends `now`
(`freqHistAfter`); the reason «частые операции» ("frequent operations") is
reported exactly when the resulting count reaches the frequency limit, and
in that case the returned level is `HIGH`. -/
theorem C5_frequency_rule (ra : RiskAnalyzer) (amount : ℚ) (currency : Currency)
    (senderId recipientId : String) (now : ℤ) (hs : senderId ≠ "") :
    lookupA senderId (ra.assess amount currency senderId recipientId now).analyzer.history =
      some (freqHistAfter ra.config ra.history senderId now) ∧
    ("частые операции" ∈ (ra.assess amount currency senderId recipientId now).reasons ↔
      ra.config.frequency_limit ≤ (freqHistAfter ra.config ra.history senderId now).length) ∧
    (ra.config.frequency_limit ≤ (freqHistAfter ra.config ra.history senderId now).length →
      (ra.assess amount currency senderId recipientId now).level = .HIGH) := by
  unfold RiskAnalyzer.assess
  dsimp only
  unfold ruleFrequency
  rw [if_neg hs]
  dsimp only
  by_cases hfreq : ra.config.frequency_limit ≤
      (freqHistAfter ra.config ra.history senderId now).length
  · rw [if_pos hfreq]
    dsimp only
    refine ⟨lookupA_updateA_self _ _ _, ?_, fun _ => ?_⟩
    · simp only [hfreq, iff_true]
      rcases ruleNewRecipient_reasons ra.known_recipients senderId recipientId
          (.HIGH, (ruleLargeAmount ra.config amount currency).2 ++ ["частые операции"])
        with h3 | h3 <;>
      rcases ruleNight_reasons ra.config now
          (ruleNewRecipient ra.known_recipients senderId recipientId
            (.HIGH, (ruleLargeAmount ra.config amount currency).2 ++ ["частые операции"])).1
        with h4 | h4 <;>
      rw [h4, h3] <;> simp
    · rw [show (ruleNewRecipient ra.known_recipients senderId recipientId
          (.HIGH, (ruleLargeAmount ra.config amount currency).2 ++ ["частые операции"])).1 =
          (.HIGH, (ruleNewRecipient ra.known_recipients senderId recipientId
            (.HIGH, (ruleLargeAmount ra.config amount currency).2 ++ ["частые операции"])).1.2)
        from ?_]
      · exact ruleNight_level_high _ _ _
      · have hl := ruleNewRecipient_level_high ra.known_recipients senderId recipientId
          ((ruleLargeAmount ra.config amount currency).2 ++ ["частые операции"])
        exact Prod.ext hl rfl
  · rw [if_neg hfreq]
    dsimp only
    refine ⟨lookupA_updateA_self _ _ _, ?_, fun h2 => absurd h2 hfreq⟩
    simp only [hfreq, iff_false]
    rcases ruleNewRecipient_reasons ra.known_recipients senderId recipientId
        (ruleLargeAmount ra.config amount currency) with h3 | h3 <;>
    rcases ruleNight_reasons ra.config now
        (ruleNewRecipient ra.known_recipients senderId recipientId
          (ruleLargeAmount ra.config amount currency)).1 with h4 | h4 <;>
    rw [h4, h3] <;>
    rcases ruleLargeAmount_reasons ra.config amount currency with h1 | h1 <;>
    rw [h1] <;> simp

/-- Witness for `C5_frequency_rule`: with the default `frequency_limit = 3`
and a 60-second window, the third `assess` call of sender S (at times
40000, 40010, 40020) returns `HIGH` with the frequent-operations reason. -/
theorem C5_witness :
    (raS2.assess 10 .RUB "S" "R" 40020).level = .HIGH ∧
    "частые операции" ∈ (raS2.assess 10 .RUB "S" "R" 40020).reasons := by
  have h := C5_frequency_rule raS2 10 .RUB "S" "R" 40020 (by decide)
  have hlen : raS2.config.frequency_limit ≤
      (freqHistAfter raS2.config raS2.history "S" 40020).length := by decide
  exact ⟨h.2.2 hlen, h.2.1.mpr hlen⟩

/-- `_ensure_active` succeeds on an active account. -/
theorem ensure_active_ok (acc : Account) (hact : acc.status = .ACTIVE) :
    acc.ensure_active = .ok () := by
  unfold Account.ensure_active
  rw [hact]
  rfl

/-- A deposit on an active account with a positive amount adds the amount. -/
theorem deposit_active (acc : Account) (v : ℚ) (hact : acc.status = .ACTIVE)
    (hv : 0 < v) : acc.deposit v = .ok { acc with balance := acc.balance + v } := by
  unfold Account.deposit
  rw [ensure_active_ok acc hact]
  dsimp only
  unfold validate_amount
  rw [if_neg (not_le.mpr hv)]

/-- A base-account withdrawal within the balance debits the amount. -/
theorem withdraw_base (acc : Account) (v : ℚ) (hact : acc.status = .ACTIVE)
    (hk : acc.kind = .base) (hv : 0 < v) (hb : ¬ v > acc.balance) :
    acc.withdraw v = .ok { acc with balance := acc.balance - v } := by
  unfold Account.withdraw
  rw [ensure_active_ok acc hact]
  dsimp only
  unfold validate_amount
  rw [if_neg (not_le.mpr hv)]
  dsimp only
  rw [hk]
  dsimp only
  rw [if_neg hb]

/-- A premium withdrawal within the overdraft limit debits the amount plus
the account's fixed per-withdrawal fee. -/
theorem withdraw_premium (acc : Account) (v L f : ℚ) (hact : acc.status = .ACTIVE)
    (hk : acc.kind = .premium L f) (hv : 0 < v)
    (hover : ¬ acc.balance - (v + f) < -L) :
    acc.withdraw v = .ok { acc with balance := acc.balance - (v + f) } := by
  unfold Account.withdraw
  rw [ensure_active_ok acc hact]
  dsimp only
  unfold validate_amount
  rw [if_neg (not_le.mpr hv)]
  dsimp only
  rw [hk]
  dsimp only
  rw [if_neg hover]

/-- Successful execution marks the popped transaction `PROCESSED` and
installs the mutated account map. -/
theorem execPhase_ok (s : ProcState) (tx : Transaction) (now : ℤ) (accs2 : AccountMap)
    (hpt : processTransaction s.config s.accounts tx = (accs2, none))
    (hlook : lookupA tx.tx_id s.queue.items = some tx) :
    s.execPhase tx now =
      ({ queue := { heap := s.queue.heap,
                    items := updateA tx.tx_id tx.mark_processed s.queue.items,
                    order_seq := s.queue.order_seq },
         config := s.config, error_log := s.error_log, audit_log := s.audit_log,
         risk_analyzer := s.risk_analyzer, accounts := accs2 }, true) := by
  unfold ProcState.execPhase
  rw [hpt]
  dsimp only
  unfold markInQueue
  rw [hlook]

/-- Without a risk analyzer, `process_next` on a successful pop is the
execution phase on the popped-from state. -/
theorem process_next_of_pop (s : ProcState) (now : ℤ) (tx : Transaction)
    (q2 : TransactionQueue)
    (hpop : s.queue.pop_ready now = (some tx, q2)) (hra : s.risk_analyzer = none) :
    s.process_next now = ({ s with queue := q2 } : ProcState).execPhase tx now := by
  unfold ProcState.process_next
  rw [hpop, hra]

/-- C6 (confirmed).  Internal transfer A(RUB, 1000) → B(USD, 0) of 100 RUB
with zero fee and registered rate RUB→USD = 0.01: the sender is debited
100 RUB (balance 900), the recipient is credited 1.00 USD, the transaction
is `PROCESSED` and `process_next` reports work done. -/
theorem C6_internal_conversion :
    lookupA "A" (s6.process_next 0).1.accounts = some { accA with balance := 900 } ∧
    lookupA "B" (s6.process_next 0).1.accounts = some { accB with balance := 1 } ∧
    (lookupA "t1" (s6.process_next 0).1.queue.items).map (·.status) =
      some .PROCESSED ∧
    (s6.process_next 0).2 = true := by
  have hfee : feeTotal cfg6 tx6 = 0 := by norm_num [feeTotal, tx6]
  have hdeb : debitAmounts cfg6 tx6 accA = .ok (100, 0) := by
    unfold debitAmounts
    rw [if_neg (by decide : ¬ (tx6.currency ≠ accA.currency)), hfee]
    rfl
  have hwd : accA.withdraw 100 = .ok { accA with balance := 900 } := by
    rw [withdraw_base accA 100 rfl rfl (by decide) (by decide)]
    rw [show accA.balance - (100 : ℚ) = 900 from by norm_num [accA]]
  have hcv : cfg6.convert tx6.amount tx6.currency accB.currency = .ok 1 := by
    unfold ProcessorConfig.convert
    rw [if_neg (by decide : ¬ (tx6.currency = accB.currency))]
    rw [show lookupRate cfg6.rates tx6.currency accB.currency = some (1 / 100) from rfl]
    dsimp only
    rw [show tx6.amount * (1 / 100 : ℚ) = 1 from by norm_num [tx6]]
  have hdep : accB.deposit 1 = .ok { accB with balance := 1 } := by
    rw [deposit_active accB 1 rfl (by decide)]
    rw [show accB.balance + (1 : ℚ) = 1 from by norm_num [accB]]
  have hpt : processTransaction cfg6 s6.accounts tx6 =
      (updateA "B" { accB with balance := 1 }
        (updateA "A" { accA with balance := 900 }
          (updateA "A" { accA with balance := 900 } s6.accounts)), none) := by
    unfold processTransaction
    rw [if_neg (by decide : ¬ (tx6.tx_type ≠ TransactionType.TRANSFER))]
    rw [if_neg (by decide : ¬ (tx6.amount ≤ (0 : ℚ)))]
    rw [show tx6.sender = some "A" from rfl, show tx6.recipient = some "B" from rfl]
    rw [show ensureAccountActive s6.accounts (some "A") = .ok () from rfl]
    dsimp only
    rw [show ensureAccountActive s6.accounts (some "B") = .ok () from rfl]
    dsimp only
    rw [show lookupA "A" s6.accounts = some accA from rfl]
    dsimp only
    rw [hdeb]
    dsimp only
    rw [show accA.kind = AccountKind.base from rfl]
    dsimp only
    rw [if_neg (show ¬ (false = false ∧ (100 : ℚ) + 0 > accA.balance) from by
      rw [show accA.balance = (1000 : ℚ) from rfl]
      norm_num)]
    rw [hwd]
    dsimp only
    rw [if_neg (by decide : ¬ ((0 : ℚ) > 0))]
    dsimp only
    rw [show lookupA "B" (updateA "A" { accA with balance := (900 : ℚ) }
      (updateA "A" { accA with balance := (900 : ℚ) } s6.accounts)) = some accB from rfl]
    dsimp only
    rw [if_pos (by decide : tx6.currency ≠ accB.currency)]
    rw [hcv]
    dsimp only
    rw [hdep]
    rfl
  have hpop : s6.queue.pop_ready 0 =
      (some tx6, { heap := [], items := [("t1", tx6)], order_seq := 1 }) := rfl
  have hrun := process_next_of_pop s6 0 tx6
    { heap := [], items := [("t1", tx6)], order_seq := 1 } hpop rfl
  have hex := execPhase_ok
    { s6 with queue := { heap := [], items := [("t1", tx6)], order_seq := 1 } }
    tx6 0
    (updateA "B" { accB with balance := 1 }
      (updateA "A" { accA with balance := 900 }
        (updateA "A" { accA with balance := 900 } s6.accounts)))
    (by exact hpt) rfl
  rw [hrun, hex]
  exact ⟨rfl, rfl, rfl, rfl⟩

/-- C7 (confirmed).  For an external credit (no sender, active recipient,
positive amount): if the total fee is at least the amount, execution fails
with `InvalidOperationError` and the account map is untouched (the
recipient is not credited); otherwise the recipient is credited
`amount − fee`, converted to the recipient's currency when it differs. -/
theorem C7_external_credit (cfg : ProcessorConfig) (accs : AccountMap)
    (tx : Transaction) (r_ref : String) (recipient : Account)
    (hsend : tx.sender = none) (hrec : tx.recipient = some r_ref)
    (htype : tx.tx_type = .TRANSFER) (hpos : 0 < tx.amount)
    (hlook : lookupA r_ref accs = some recipient)
    (hact : recipient.status = .ACTIVE) :
    (tx.amount ≤ feeTotal cfg tx →
      ∃ m, processTransaction cfg accs tx = (accs, some (.InvalidOperation m))) ∧
    (∀ ca : ℚ, feeTotal cfg tx < tx.amount → 0 < ca →
      (if tx.currency ≠ recipient.currency then
         cfg.convert (tx.amount - feeTotal cfg tx) tx.currency recipient.currency
       else .ok (tx.amount - feeTotal cfg tx)) = .ok ca →
      processTransaction cfg accs tx =
        (updateA r_ref { recipient with balance := recipient.balance + ca } accs, none)) := by
  have ht : ¬ (tx.tx_type ≠ TransactionType.TRANSFER) := by
    rw [htype]
    exact fun h => h rfl
  have hensR : ensureAccountActive accs (some r_ref) = .ok () := by
    unfold ensureAccountActive
    dsimp only
    rw [hlook]
    dsimp only
    rw [hact]
    rfl
  have hopen : ∀ (P : (AccountMap × Option PErr) → Prop),
      P (if (tx.amount - feeTotal cfg tx) ≤ 0 then
          (accs, some (.InvalidOperation "Сумма после комиссии должна быть положительной."))
        else
          match (if tx.currency ≠ recipient.currency then
                   cfg.convert (tx.amount - feeTotal cfg tx) tx.currency recipient.currency
                 else .ok (tx.amount - feeTotal cfg tx)) with
          | .error e => (accs, some e)
          | .ok ca =>
            match recipient.deposit ca with
            | .error e => (accs, some e)
            | .ok recipient1 => (updateA r_ref recipient1 accs, none)) →
      P (processTransaction cfg accs tx) := by
    intro P hP
    unfold processTransaction
    rw [if_neg ht, if_neg (not_le.mpr hpos), hsend, hrec]
    dsimp only
    rw [hensR]
    dsimp only
    rw [hlook]
    exact hP
  constructor
  · intro hfee
    refine hopen (fun p => ∃ m, p = (accs, some (.InvalidOperation m))) ?_
    rw [if_pos (by linarith : tx.amount - feeTotal cfg tx ≤ 0)]
    exact ⟨_, rfl⟩
  · intro ca hlt hca hconv
    refine hopen (fun p =>
      p = (updateA r_ref { recipient with balance := recipient.balance + ca } accs, none)) ?_
    rw [if_neg (by linarith : ¬ tx.amount - feeTotal cfg tx ≤ 0), hconv]
    dsimp only
    rw [deposit_active recipient ca hact hca]

/-- Witness for `C7_external_credit`: crediting 10 RUB with fee 3 onto the
RUB account A deposits 7 (balance 1007). -/
theorem C7_witness :
    processTransaction cfg6 accsC7 txC7 =
      (updateA "A" { accA with balance := 1007 } accsC7, none) := by
  have hfee : feeTotal cfg6 txC7 = 3 := by norm_num [feeTotal, txC7]
  have h := (C7_external_credit cfg6 accsC7 txC7 "A" accA rfl rfl rfl (by decide)
    rfl rfl).2 7 (by rw [hfee]; decide) (by decide)
    (by rw [if_neg (by decide : ¬ (txC7.currency ≠ accA.currency))]
        rw [show txC7.amount - feeTotal cfg6 txC7 = 7 from by rw [hfee]; norm_num [txC7]])
  rw [show ({ accA with balance := accA.balance + (7 : ℚ) } : Account) =
    { accA with balance := 1007 } from by
      rw [show accA.balance + (7 : ℚ) = 1007 from by norm_num [accA]]] at h
  exact h

/-- Behaviour of the execution phase on a terminal error: the transaction
is marked `FAILED` with the error message, the error log gets the
`id: TypeName: message` entry, and the phase reports work done. -/
theorem execPhase_terminal (s : ProcState) (tx : Transaction) (now : ℤ) (e : PErr)
    (accs2 : AccountMap)
    (hpt : processTransaction s.config s.accounts tx = (accs2, some e))
    (hterm : e.isTerminal = true)
    (hlook : lookupA tx.tx_id s.queue.items = some tx) :
    (s.execPhase tx now).2 = true ∧
    lookupA tx.tx_id (s.execPhase tx now).1.queue.items = some (tx.mark_failed e.msg) ∧
    (s.execPhase tx now).1.error_log =
      s.error_log ++ [tx.tx_id ++ ": " ++ e.typeName ++ ": " ++ e.msg] ∧
    (s.execPhase tx now).1.accounts = accs2 := by
  unfold ProcState.execPhase
  rw [hpt]
  dsimp only
  rw [if_pos hterm]
  refine ⟨rfl, ?_, rfl, rfl⟩
  unfold markInQueue
  rw [hlook]
  dsimp only
  rw [lookupA_updateA_self]

/-- C8 (confirmed).  `process_next` never propagates a terminal execution
error (`AccountFrozenError`, `AccountClosedError`, `InsufficientFundsError`,
`InvalidOperationError`): whenever execution of the popped transaction
produces such an error (and the risk gate did not block it), the
transaction is marked `FAILED` with the error's message, an entry
`id: TypeName: message` is appended to the processor's error log, and
`process_next` returns normally with `true`.  (In this embedding
`process_next` is a total function: the catch-all structure of the source
means no exception escapes.) -/
theorem C8_terminal_errors_handled (s : ProcState) (now : ℤ) (tx : Transaction)
    (q2 : TransactionQueue) (e : PErr)
    (hpop : s.queue.pop_ready now = (some tx, q2))
    (hlook : lookupA tx.tx_id s.queue.items = some tx)
    (hblock : riskBlocked s tx now = false)
    (herr : (processTransaction s.config s.accounts tx).2 = some e)
    (hterm : e.isTerminal = true) :
    (s.process_next now).2 = true ∧
    lookupA tx.tx_id (s.process_next now).1.queue.items = some (tx.mark_failed e.msg) ∧
    (s.process_next now).1.error_log =
      s.error_log ++ [tx.tx_id ++ ": " ++ e.typeName ++ ": " ++ e.msg] := by
  have hq2i : q2.items = s.queue.items := by
    rw [← pop_ready_items s.queue now, hpop]
  rcases hpt : processTransaction s.config s.accounts tx with ⟨accs2, oe⟩
  have hoe : oe = some e := by
    rw [hpt] at herr
    exact herr
  subst hoe
  obtain ⟨s2, heq, hcfg, hacc, herrlog, hq⟩ := process_next_exec_form s now tx q2 hpop hblock
  have key := execPhase_terminal s2 tx now e accs2
    (by rw [hcfg, hacc]; exact hpt) hterm
    (by rw [hq, hq2i]; exact hlook)
  rw [heq]
  refine ⟨key.1, key.2.1, ?_⟩
  rw [key.2.2.1, herrlog]

/-- Witness for `C8_terminal_errors_handled`: a transfer from the frozen
account F fails terminally with `AccountFrozenError` and is logged. -/
theorem C8_witness :
    (sC8.process_next 0).2 = true ∧
    lookupA "f" (sC8.process_next 0).1.queue.items =
      some (txC8.mark_failed "Счёт заморожен.") ∧
    (sC8.process_next 0).1.error_log = ["f: AccountFrozenError: Счёт заморожен."] := by
  have h := C8_terminal_errors_handled sC8 0 txC8
    { heap := [], items := [("f", txC8)], order_seq := 1 }
    (.AccountFrozen "Счёт заморожен.") rfl rfl rfl rfl rfl
  exact ⟨h.1, h.2.1, h.2.2⟩

/-- `updateA` at a key already in the map preserves which keys are bound. -/
theorem lookupA_updateA_isSome {α : Type} (k : String) (v : α) (l : List (String × α))
    (hk : (lookupA k l).isSome = true) (id0 : String) :
    (lookupA id0 (updateA k v l)).isSome = (lookupA id0 l).isSome := by
  by_cases h : id0 = k
  · subst h
    rw [lookupA_updateA_self]
    rw [hk]
    rfl
  · rw [lookupA_updateA_ne _ _ h]

/-- C9 (confirmed).  The queue's id map never forgets an id: `cancel`,
`pop_ready` and `requeue` preserve the bound keys of `_items`, and `add`
of any transaction whose id is already bound always fails with the
duplicate-id error — even after the original transaction became terminal. -/
theorem C9_id_map_retention :
    (∀ (q : TransactionQueue) (id r id0 : String),
       (lookupA id0 (q.cancel id r).2.items).isSome = (lookupA id0 q.items).isSome) ∧
    (∀ (q : TransactionQueue) (now : ℤ) (id0 : String),
       lookupA id0 (q.pop_ready now).2.items = lookupA id0 q.items) ∧
    (∀ (q : TransactionQueue) (id : String) (now d : ℤ) (id0 : String),
       (lookupA id0 (q.requeue id now d).items).isSome = (lookupA id0 q.items).isSome) ∧
    (∀ (q : TransactionQueue) (tx2 : Transaction),
       (lookupA tx2.tx_id q.items).isSome = true →
       q.add tx2 = .error "Транзакция с таким id уже есть в очереди.") := by
  refine ⟨?_, ?_, ?_, ?_⟩
  · intro q id r id0
    unfold TransactionQueue.cancel
    cases hli : lookupA id q.items with
    | none => rfl
    | some tx =>
      dsimp only
      by_cases hs : tx.status = .PROCESSED ∨ tx.status = .CANCELLED
      · rw [if_pos hs]
      · rw [if_neg hs]
        exact lookupA_updateA_isSome id _ q.items (by rw [hli]; rfl) id0
  · intro q now id0
    rfl
  · intro q id now d id0
    unfold TransactionQueue.requeue
    cases hli : lookupA id q.items with
    | none => rfl
    | some tx =>
      dsimp only
      by_cases hp : tx.status ≠ .PENDING
      · rw [if_pos hp]
      · rw [if_neg hp]
        exact lookupA_updateA_isSome id _ q.items (by rw [hli]; rfl) id0
  · intro q tx2 hsome
    unfold TransactionQueue.add
    cases hli : lookupA tx2.tx_id q.items with
    | none =>
      rw [hli] at hsome
      exact Bool.noConfusion hsome
    | some t => rfl

/-- Witness for `C9_id_map_retention`: re-adding `txA` to `qC1` fails with
the duplicate-id error. -/
theorem C9_witness :
    qC1.add txA = .error "Транзакция с таким id уже есть в очереди." := by
  exact C9_id_map_retention.2.2.2 qC1 txA rfl

/-- The credit leg never disturbs the sender's entry (for a distinct
recipient reference). -/
theorem lookupA_creditPhase (cfg : ProcessorConfig) (accs2 : AccountMap)
    (tx : Transaction) (r_ref s_ref : String) (recipient : Account)
    (v : Option Account) (hnes : s_ref ≠ r_ref) (hv : lookupA s_ref accs2 = v) :
    lookupA s_ref (creditPhase cfg accs2 tx r_ref recipient).1 = v := by
  unfold creditPhase
  cases (if tx.currency ≠ recipient.currency then
           cfg.convert tx.amount tx.currency recipient.currency
         else Except.ok tx.amount) with
  | error e => exact hv
  | ok credit =>
    show lookupA s_ref ((match recipient.deposit credit with
      | .error e => (accs2, some e)
      | .ok recipient1 => (updateA r_ref recipient1 accs2, none) :
        AccountMap × Option PErr)).1 = v
    cases recipient.deposit credit with
    | error e => exact hv
    | ok r1 =>
      show lookupA s_ref (updateA r_ref r1 accs2) = v
      rw [lookupA_updateA_ne _ _ hnes]
      exact hv

/-- C10 (confirmed).  For an internal transfer whose sender is a premium
account with per-withdrawal fee `f` and overdraft limit `L`, with converted
debit amounts `(da, df)` and both withdrawals within the overdraft limit,
the processor issues two `withdraw` calls (principal, then transaction
fee), each charging the account fee once, so the sender's balance drops by
`da + df + 2·f` — regardless of whether the subsequent credit to the
recipient succeeds. -/
theorem C10_premium_double_fee (cfg : ProcessorConfig) (accs : AccountMap)
    (tx : Transaction) (s_ref r_ref : String) (sender recipient : Account)
    (L f da df : ℚ)
    (hsend : tx.sender = some s_ref) (hrec : tx.recipient = some r_ref)
    (hne : r_ref ≠ s_ref)
    (htype : tx.tx_type = .TRANSFER) (hpos : 0 < tx.amount)
    (hlooks : lookupA s_ref accs = some sender)
    (hlookr : lookupA r_ref accs = some recipient)
    (hsact : sender.status = .ACTIVE) (hract : recipient.status = .ACTIVE)
    (hkind : sender.kind = .premium L f)
    (hda : 0 < da) (hdf : 0 < df)
    (hconv : debitAmounts cfg tx sender = .ok (da, df))
    (h1 : ¬ sender.balance - (da + f) < -L)
    (h2 : ¬ sender.balance - (da + f) - (df + f) < -L) :
    lookupA s_ref (processTransaction cfg accs tx).1 =
      some { sender with balance := sender.balance - (da + df + 2 * f) } := by
  have ht : ¬ (tx.tx_type ≠ TransactionType.TRANSFER) := by
    rw [htype]
    exact fun h => h rfl
  have hensS : ensureAccountActive accs (some s_ref) = .ok () := by
    unfold ensureAccountActive
    dsimp only
    rw [hlooks]
    dsimp only
    rw [hsact]
    rfl
  have hensR : ensureAccountActive accs (some r_ref) = .ok () := by
    unfold ensureAccountActive
    dsimp only
    rw [hlookr]
    dsimp only
    rw [hract]
    rfl
  have hw1 := withdraw_premium sender da L f hsact hkind hda h1
  have hw2 := withdraw_premium { sender with balance := sender.balance - (da + f) }
    df L f hsact hkind hdf (by dsimp only; exact h2)
  have hbal : sender.balance - (da + f) - (df + f) = sender.balance - (da + df + 2 * f) := by
    ring
  have hnes : s_ref ≠ r_ref := fun h => hne h.symm
  unfold processTransaction
  rw [if_neg ht, if_neg (not_le.mpr hpos), hsend, hrec]
  dsimp only
  rw [hensS]
  dsimp only
  rw [hensR]
  dsimp only
  rw [hlooks]
  dsimp only
  rw [hconv]
  dsimp only
  rw [hkind]
  dsimp only
  rw [if_neg (show ¬ (true = false ∧ da + df > sender.balance) from by simp)]
  rw [hw1]
  dsimp only
  rw [if_pos hdf]
  rw [hw2]
  dsimp only
  rw [lookupA_updateA_ne _ _ hne, lookupA_updateA_ne _ _ hne, hlookr]
  exact lookupA_creditPhase _ _ _ _ _ _ _ hnes
    (by rw [lookupA_updateA_self, hbal, hkind])

/-- Witness for `C10_premium_double_fee`: premium P (overdraft 100, fee 5)
sends 50 RUB with transaction fee 2; P's balance drops by 50 + 2 + 2·5 = 62. -/
theorem C10_witness :
    lookupA "P" (processTransaction cfg6 accsP txP).1 = some { accP with balance := -62 } := by
  have hconv : debitAmounts cfg6 txP accP = .ok (50, 2) := by
    unfold debitAmounts
    rw [if_neg (by decide : ¬ (txP.currency ≠ accP.currency))]
    rw [show feeTotal cfg6 txP = 2 from by norm_num [feeTotal, txP]]
    rfl
  have h := C10_premium_double_fee cfg6 accsP txP "P" "A" accP accA 100 5 50 2
    rfl rfl (by decide) rfl (by decide) rfl rfl rfl rfl rfl (by decide) (by decide)
    hconv (by norm_num [accP]) (by norm_num [accP])
  rw [show accP.balance - (50 + 2 + 2 * 5 : ℚ) = -62 from by norm_num [accP]] at h
  exact h

end OOPBase
